import Mathlib

/-!
Verification of the distance caching and batch-completion subsystem of the
altaradius transport-distance application.

The TypeScript sources are shallowly embedded as pure Lean functions:

* `src/lib/googleMaps.ts` (src/unnamed/part_013): the external route provider
  adapter — `calculateDistance`, `geocodeAddress` / `geocodeAddressWithFallbacks`,
  `batchCalculateDistances`.
* `src/app/api/distances/route.ts` (src/unnamed/part_011): the main completion
  engine — `getExistingDistances`, `calculateSingleDistance`,
  `calculateDistancesFromSource`, `calculateDistancesToDestination`,
  `calculateAllDistances`.
* `src/app/api/calculate/route.ts` variant (src/unnamed/part_008): the legacy
  per-pair (N+1) variant of `calculateDistancesFromSource`.
* the Source/Destination DELETE route handlers.

External effects are resolved against a fixed `Env` of oracles (HTTP responses of
the Google APIs, wall-clock comparisons, and conflicting concurrent writers), so
each handler becomes a deterministic state transformer on a `Db` value.
JavaScript numbers standing for coordinates are modelled as `Int`;
distances are kept in hundredths of a kilometre (`Math.round(m/1000*100)` =
`(m+5)/10` for natural `m`) and durations in whole minutes
(`Math.round(s/60)` = `(s+30)/60`), which reproduces `Math.round` exactly for
the non-negative integral inputs the APIs deliver.
-/

/-! ### Locations, data model rows -/

/-- A latitude/longitude pair (`Location` in googleMaps.ts). -/
structure Loc where
  latitude : Int
  longitude : Int
deriving DecidableEq, Repr

/-- A `Source` row: coordinates are mandatory in the schema. -/
structure Source where
  id : Nat
  name : String
  latitude : Int
  longitude : Int
  address : Option String
deriving DecidableEq, Repr

/-- A `Destination` row: coordinates are optional (backfilled by geocoding). -/
structure Destination where
  id : Nat
  name : String
  pincode : Option String
  address : Option String
  latitude : Option Int
  longitude : Option Int
deriving DecidableEq, Repr

/-- The raw element of a legacy distance-matrix response
(`rows[k].elements[j]` in `batchCalculateDistances`). -/
structure RawElem where
  status : String
  distanceMeters : Nat
  durationSeconds : Nat
deriving DecidableEq, Repr

/-- One entry of the Routes API `computeRouteMatrix` response array
(used by `calculateDistance`). `duration` is the parsed seconds value. -/
structure RouteEntry where
  condition : String
  distanceMeters : Option Nat
  duration : Option Nat
deriving DecidableEq, Repr

/-- The opaque `route` blob stored on a Distance row: the TypeScript code stores
`JSON.stringify` of the provider response; we store the response value itself
(an injective serialisation). -/
inductive RouteBlob where
  | routesApi (r : RouteEntry)
  | matrixApi (e : RawElem)
deriving DecidableEq, Repr

/-- `DistanceResult` of googleMaps.ts. `distance` is in hundredths of km,
`duration` in minutes. -/
structure DistanceResult where
  distance : Nat
  duration : Nat
  route : Option RouteBlob
  directionsUrl : Option String
deriving DecidableEq, Repr

/-- A `Distance` cache row. -/
structure DistanceRow where
  id : Nat
  sourceId : Nat
  destinationId : Nat
  distance : Nat
  duration : Option Nat
  route : Option RouteBlob
  directionsUrl : Option String
deriving DecidableEq, Repr

/-- The relational store: three tables plus the id sequence for Distance. -/
structure Db where
  sources : List Source
  destinations : List Destination
  distances : List DistanceRow
  nextDistanceId : Nat
deriving DecidableEq, Repr

/-! ### JavaScript truthiness helpers -/

/-- JS truthiness of an optional number: `undefined`/`null` and `0` are falsy. -/
def truthyNum : Option Int → Bool
  | none => false
  | some v => v != 0

/-- JS truthiness of an optional string: `undefined`/`null` and `""` are falsy. -/
def truthyStr : Option String → Bool
  | none => false
  | some s => s != ""

/-- `Math.round (m / 1000 * 100)` for a natural number of meters, giving
hundredths of a kilometre. -/
def roundCentiKm (m : Nat) : Nat := (m + 5) / 10

/-- `Math.round (s / 60)` for a natural number of seconds, giving minutes. -/
def roundMinutes (s : Nat) : Nat := (s + 30) / 60

/-! ### Environment of external oracles -/

/-- Outcome of one Routes API `computeRouteMatrix` HTTP call. `fail` is a
transport/auth/quota error (the `axios` promise rejects). -/
inductive RoutesOutcome where
  | fail
  | ok (routes : List RouteEntry)
deriving DecidableEq, Repr

/-- One row of a legacy matrix API response. -/
structure MatrixRow where
  elements : List RawElem
deriving DecidableEq, Repr

/-- The fixed environment resolving every external effect of one request:
HTTP oracles for the three provider endpoints, the geocoder, the environment
flags, the wall-clock comparisons of `calculateDistancesFromSource`, and a
concurrent-writer oracle that makes `prisma.distance.create` fail with a
duplicate-key conflict. -/
structure Env where
  keyConfigured : Bool
  isProduction : Bool
  /-- Routes API oracle for `calculateDistance`, per origin/destination. -/
  routes : Loc → Loc → RoutesOutcome
  /-- Legacy matrix API oracle, per origin chunk and destination chunk;
  `none` means the HTTP call throws. -/
  matrix : List Loc → List Loc → Option (List MatrixRow)
  /-- Geocoding oracle per free-text query (already folding API errors to
  `none`, as `geocodeAddress` catches them). -/
  geocode : String → Option Loc
  /-- Result of the `Date.now() - startTime > timeLimit` pre-flight check. -/
  earlyTimeout : Bool
  /-- Result of the `Date.now() - startTime > timeLimit - 5000` check just
  before the batch call. -/
  preBatchTimeout : Bool
  /-- Whether `batchCalculateDistances` wins its `Promise.race` against the
  timeout timer (false also covers an immediate throw of the batch path). -/
  batchWins : Bool
  /-- Whether a concurrent run has already written this pair, so that
  `prisma.distance.create` raises a duplicate-key `ConflictError`. -/
  createConflict : Nat → Nat → Bool

/-! ### Provider adapter: `calculateDistance` (googleMaps.ts lines 31-120) -/

/-- `generateDirectionsUrl` of googleMaps.ts. -/
def generateDirectionsUrl (origin dest : Loc) : String :=
  "https://www.google.com/maps/dir/" ++ toString origin.latitude ++ "," ++
    toString origin.longitude ++ "/" ++ toString dest.latitude ++ "," ++
    toString dest.longitude

/-- `calculateDistance` of googleMaps.ts: throws (`.error`) only when the API
key is missing; a transport error of the HTTP call is caught and yields `null`
(`.ok none`), exactly like the no-route and empty-response cases. -/
def gmCalculateDistance (env : Env) (origin dest : Loc) :
    Except String (Option DistanceResult) :=
  if !env.keyConfigured then
    .error "Google Maps API key is not configured"
  else
    match env.routes origin dest with
    | .fail => .ok none
    | .ok routes =>
      match routes.head? with
      | none => .ok none
      | some route =>
        if route.condition != "ROUTE_EXISTS" || !(truthyNum (route.distanceMeters.map Int.ofNat))
            || !(truthyNum (route.duration.map Int.ofNat)) then
          .ok none
        else
          .ok (some
            { distance := roundCentiKm (route.distanceMeters.getD 0)
              duration := roundMinutes (route.duration.getD 0)
              route := some (.routesApi route)
              directionsUrl := some (generateDirectionsUrl origin dest) })

/-! ### Provider adapter: geocoding with fallbacks (googleMaps.ts 122-213) -/

/-- `geocodeAddress`: key check then the geocoding oracle (API errors are
caught inside and become `none`). -/
def gmGeocodeAddress (env : Env) (address : String) : Except String (Option Loc) :=
  if !env.keyConfigured then .error "Google Maps API key is not configured"
  else .ok (env.geocode address)

/-- `geocodeAddressWithFallbacks`: the ordered fallback chain of five query
strategies, returning the first hit. -/
def gmGeocodeWithFallbacks (env : Env) (name : String)
    (pincode address : Option String) : Except String (Option Loc) :=
  if !env.keyConfigured then .error "Google Maps API key is not configured"
  else .ok (
    -- Strategy 1: name, address, pincode, Tamil Nadu, India
    match (if truthyStr pincode && truthyStr address then
            env.geocode (name ++ ", " ++ address.getD "" ++ ", " ++ pincode.getD "" ++
              ", Tamil Nadu, India")
          else none) with
    | some r => some r
    | none =>
      -- Strategy 2: name, pincode, Tamil Nadu, India
      match (if truthyStr pincode then
              env.geocode (name ++ ", " ++ pincode.getD "" ++ ", Tamil Nadu, India")
            else none) with
      | some r => some r
      | none =>
        -- Strategy 3: pincode, Tamil Nadu, India
        match (if truthyStr pincode then
                env.geocode (pincode.getD "" ++ ", Tamil Nadu, India")
              else none) with
        | some r => some r
        | none =>
          -- Strategy 4: name, address, Tamil Nadu, India
          match (if truthyStr address then
                  env.geocode (name ++ ", " ++ address.getD "" ++ ", Tamil Nadu, India")
                else none) with
          | some r => some r
          | none =>
            -- Strategy 5: name, Tamil Nadu, India
            env.geocode (name ++ ", Tamil Nadu, India"))

/-! ### Provider adapter: `batchCalculateDistances` (googleMaps.ts 215-286) -/

/-- Worker for `chunksOf`, structurally recursive on a fuel that starts at
`l.length` (for a positive chunk size, each step drops at least one element,
so the fuel never runs out). -/
def chunksOfGo (n : Nat) : Nat → List α → List (List α)
  | _, [] => []
  | 0, _ :: _ => []
  | fuel + 1, x :: xs => ((x :: xs).take n) :: chunksOfGo n fuel ((x :: xs).drop n)

/-- Splitting a list into consecutive chunks of at most `n` elements,
mirroring the `for (i = 0; i < xs.length; i += n) xs.slice(i, i + n)` loops. -/
def chunksOf (n : Nat) (l : List α) : List (List α) :=
  if n = 0 then [] else chunksOfGo n l.length l

/-- Pushing a block of new rows onto the accumulated `batchResults`, row by
row: `if (!batchResults[k]) batchResults[k] = []; batchResults[k].push(...)`.
Rows beyond either side's length are kept as-is (absent entries act as `[]`). -/
def appendRows : List (List α) → List (List α) → List (List α)
  | [], [] => []
  | [], n :: ns => n :: appendRows [] ns
  | a :: as, [] => a :: appendRows as []
  | a :: as, n :: ns => (a ++ n) :: appendRows as ns

/-- Converting one matrix element (`element.status === 'OK'` check plus unit
conversions) to a `DistanceResult | null` cell. -/
def elemToResult (e : RawElem) : Option DistanceResult :=
  if e.status == "OK" then
    some { distance := roundCentiKm e.distanceMeters
           duration := roundMinutes e.durationSeconds
           route := some (.matrixApi e)
           directionsUrl := none }
  else none

/-- The rows contributed by one `(originBatch, destinationBatch)` HTTP call:
on success every response row is converted element-wise; on a thrown call the
`catch` fills `originBatch.length × destinationBatch.length` nulls. -/
def chunkRows (env : Env) (originBatch destBatch : List Loc) :
    List (List (Option DistanceResult)) :=
  match env.matrix originBatch destBatch with
  | some rows => rows.map (fun r => r.elements.map elemToResult)
  | none => List.replicate originBatch.length (List.replicate destBatch.length none)

/-- Result of the batch adapter: the stitched matrix plus the log of HTTP
calls actually issued (origin chunk, destination chunk). -/
structure BatchOut where
  matrix : List (List (Option DistanceResult))
  callLog : List (List Loc × List Loc)
deriving Repr

/-- The body of `batchCalculateDistances` after the key check: iterate origin
chunks of 10, destination chunks of 25, one HTTP call each, and stitch. -/
def gmBatchCore (env : Env) (origins dests : List Loc) : BatchOut :=
  let oChunks := chunksOf 10 origins
  let dChunks := chunksOf 25 dests
  { matrix := oChunks.flatMap (fun ob =>
      dChunks.foldl (fun acc dc => appendRows acc (chunkRows env ob dc)) [])
    callLog := oChunks.flatMap (fun ob => dChunks.map (fun dc => (ob, dc))) }

/-- `batchCalculateDistances`: throws only when the API key is missing. -/
def gmBatchCalculateDistances (env : Env) (origins dests : List Loc) :
    Except String BatchOut :=
  if !env.keyConfigured then .error "Google Maps API key is not configured"
  else .ok (gmBatchCore env origins dests)

/-! ### A concrete total order on strings

The data store orders rows by name (`orderBy: { name: 'asc' }`) and
`calculateAllDistances` sorts with `localeCompare`; both are total orders on
strings whose exact collation is environment-defined. The model fixes the
concrete lexicographic order on character codes (which is also computable by
the kernel, unlike `String.le`). -/

/-- The code point of a character, the sort key of the lexicographic order. -/
def charKey (c : Char) : Nat := c.toNat

/-- Lexicographic less-or-equal on character sequences. -/
def strLeChars : List Char → List Char → Bool
  | [], _ => true
  | _ :: _, [] => false
  | a :: as, b :: bs =>
    decide (charKey a < charKey b) || (charKey a == charKey b && strLeChars as bs)

/-- Lexicographic less-or-equal on strings. -/
def strLeB (a b : String) : Bool := strLeChars a.toList b.toList

/-! ### Database access helpers -/

/-- `prisma.source.findUnique({ where: { id } })`. -/
def findSource (db : Db) (id : Nat) : Option Source :=
  db.sources.find? (fun s => s.id == id)

/-- `prisma.destination.findUnique({ where: { id } })`. -/
def findDest (db : Db) (id : Nat) : Option Destination :=
  db.destinations.find? (fun d => d.id == id)

/-- `prisma.distance.findUnique` on the composite unique key. -/
def findPair (rows : List DistanceRow) (s d : Nat) : Option DistanceRow :=
  rows.find? (fun r => r.sourceId == s && r.destinationId == d)

/-- The lookup of a JS `Map` built by `forEach`/`set` over the rows keyed by
the pair: a later `set` overwrites an earlier one, so the last match wins. -/
def lastLookup (rows : List DistanceRow) (s d : Nat) : Option DistanceRow :=
  rows.foldl (fun acc r =>
    if r.sourceId == s && r.destinationId == d then some r else acc) none

/-- `prisma.destination.findMany({ where: { latitude: { not: null },
longitude: { not: null } }, orderBy: { name: 'asc' } })`. -/
def sortedDests (db : Db) : List Destination :=
  (db.destinations.filter (fun d => d.latitude.isSome && d.longitude.isSome)).insertionSort
    (fun a b => strLeB a.name b.name = true)

/-- `prisma.source.findMany({ orderBy: { name: 'asc' } })`. -/
def sortedSources (db : Db) : List Source :=
  db.sources.insertionSort (fun a b => strLeB a.name b.name = true)

/-- Coordinates of a source. -/
def srcLoc (s : Source) : Loc := { latitude := s.latitude, longitude := s.longitude }

/-- Coordinates of a destination known to have them (`0` as harmless default). -/
def destLoc (d : Destination) : Loc :=
  { latitude := d.latitude.getD 0, longitude := d.longitude.getD 0 }

/-- Source name joined onto a Distance row (empty for a dangling FK, which the
schema's referential integrity rules out). -/
def srcNameOf (db : Db) (r : DistanceRow) : String :=
  ((findSource db r.sourceId).map (fun s => s.name)).getD ""

/-- Destination name joined onto a Distance row. -/
def destNameOf (db : Db) (r : DistanceRow) : String :=
  ((findDest db r.destinationId).map (fun d => d.name)).getD ""

/-- The `source name asc, destination name asc` comparator used for ordering
results (both the SQL `orderBy` and the JS comparator of
`calculateAllDistances`). -/
def rowLeB (db : Db) (a b : DistanceRow) : Bool :=
  if srcNameOf db a == srcNameOf db b then strLeB (destNameOf db a) (destNameOf db b)
  else strLeB (srcNameOf db a) (srcNameOf db b)

/-! ### Responses and run instrumentation -/

/-- The observable part of a completion-scope HTTP response. `rows` is the
JSON array body on success; `timeoutFlag` records a `timeout: true` member in
a JSON object body; `headers` the headers explicitly set on the response. -/
structure ApiResponse where
  status : Nat
  rows : List DistanceRow
  errorMsg : Option String
  timeoutFlag : Bool
  headers : List (String × String)
deriving DecidableEq, Repr

/-- Instrumentation of one completion run: which data-store existence queries
and which provider invocations it performed. -/
structure RunLog where
  /-- Bulk `findMany` existence checks: (source ids, destination ids) scanned. -/
  bulkExistQueries : List (List Nat × List Nat)
  /-- Per-pair `findUnique` existence checks. -/
  singleExistQueries : List (Nat × Nat)
  /-- `calculateDistance` provider invocations: ((sourceId, destinationId),
  (origin, destination)) actually sent to the Routes API. -/
  singleCalls : List ((Nat × Nat) × (Loc × Loc))
  /-- HTTP calls of the legacy matrix API issued inside
  `batchCalculateDistances` (origin chunk, destination chunk). -/
  chunkCalls : List (List Loc × List Loc)
  /-- The argument lists `batchCalculateDistances` was invoked with, if any. -/
  batchArgs : Option (List Loc × List Loc)
  /-- Number of `geocodeAddressWithFallbacks` invocations. -/
  geocodeRuns : Nat
deriving Repr

/-- The empty log. -/
def RunLog.empty : RunLog :=
  { bulkExistQueries := [], singleExistQueries := [], singleCalls := [],
    chunkCalls := [], batchArgs := none, geocodeRuns := 0 }

/-- Result of running one completion scope handler. -/
structure ScopeOut where
  response : ApiResponse
  db : Db
  log : RunLog
deriving Repr

/-- Plain 200 response carrying a JSON array of rows and no headers. -/
def jsonRows (rows : List DistanceRow) : ApiResponse :=
  { status := 200, rows := rows, errorMsg := none, timeoutFlag := false, headers := [] }

/-- Error response `{ error: msg }`. -/
def jsonError (status : Nat) (msg : String) : ApiResponse :=
  { status := status, rows := [], errorMsg := some msg, timeoutFlag := false, headers := [] }

/-- Error response `{ error: msg, timeout: true }`. -/
def jsonTimeout (status : Nat) (msg : String) : ApiResponse :=
  { status := status, rows := [], errorMsg := some msg, timeoutFlag := true, headers := [] }

/-! ### Row creation (`prisma.distance.create`) -/

/-- The row built from a `calculateDistance` result
(`...(result.directionsUrl && { directionsUrl: result.directionsUrl })`:
a falsy `directionsUrl` is simply not stored). -/
def mkRowFromSingle (nid sid did : Nat) (r : DistanceResult) : DistanceRow :=
  { id := nid, sourceId := sid, destinationId := did, distance := r.distance,
    duration := some r.duration, route := r.route,
    directionsUrl := if truthyStr r.directionsUrl then r.directionsUrl else none }

/-- The row built in the batch-persisting loops, whose `directionsUrl` is the
inline template equal to `generateDirectionsUrl` of the two coordinates. -/
def mkRowFromBatch (nid sid did : Nat) (o d : Loc) (r : DistanceResult) : DistanceRow :=
  { id := nid, sourceId := sid, destinationId := did, distance := r.distance,
    duration := some r.duration, route := r.route,
    directionsUrl := some (generateDirectionsUrl o d) }

/-- Whether `prisma.distance.create` raises a duplicate-key `ConflictError`:
either the row already exists, or a concurrent writer (modelled by the
`createConflict` oracle) has just inserted it. -/
def createThrows (env : Env) (db : Db) (sid did : Nat) : Bool :=
  (findPair db.distances sid did).isSome || env.createConflict sid did

/-- Insert a freshly built row and advance the id sequence. -/
def pushRow (db : Db) (row : DistanceRow) : Db :=
  { db with distances := db.distances ++ [row], nextDistanceId := db.nextDistanceId + 1 }

/-! ### part_011 `calculateDistancesFromSource` / `...ToDestination` -/

/-- One work item of a batch-persisting or fallback loop:
(sourceId, destinationId, source coords, destination coords). -/
structure PairItem where
  sid : Nat
  did : Nat
  sLoc : Loc
  dLoc : Loc
deriving DecidableEq, Repr

/-- The persisting loop over batch results
(`for (i = 0; ...) { if (result) { ... prisma.distance.create ... results.push } }`).
A `ConflictError` from `create` is not caught here: it aborts the loop
(third component `true`) and propagates to the surrounding `catch`. -/
def persistBatchLoop (env : Env) :
    List (PairItem × Option DistanceResult) → Db → List DistanceRow →
      Db × List DistanceRow × Bool
  | [], db, acc => (db, acc, false)
  | (_, none) :: rest, db, acc => persistBatchLoop env rest db acc
  | (p, some r) :: rest, db, acc =>
    if createThrows env db p.sid p.did then (db, acc, true)
    else
      let row := mkRowFromBatch db.nextDistanceId p.sid p.did p.sLoc p.dLoc r
      persistBatchLoop env rest (pushRow db row) (acc ++ [row])

/-- The per-pair fallback loop run from the `catch` of the batch path: each
iteration calls `calculateDistance` and `create` inside its own `try`, so both
a provider error and a create conflict are logged and skipped. -/
def fallbackLoop (env : Env) :
    List PairItem → Db → List DistanceRow → List ((Nat × Nat) × (Loc × Loc)) →
      Db × List DistanceRow × List ((Nat × Nat) × (Loc × Loc))
  | [], db, acc, calls => (db, acc, calls)
  | p :: rest, db, acc, calls =>
    match gmCalculateDistance env p.sLoc p.dLoc with
    | .error _ => fallbackLoop env rest db acc calls
    | .ok none => fallbackLoop env rest db acc (calls ++ [((p.sid, p.did), (p.sLoc, p.dLoc))])
    | .ok (some r) =>
      let calls' := calls ++ [((p.sid, p.did), (p.sLoc, p.dLoc))]
      if createThrows env db p.sid p.did then fallbackLoop env rest db acc calls'
      else
        let row := mkRowFromSingle db.nextDistanceId p.sid p.did r
        fallbackLoop env rest (pushRow db row) (acc ++ [row]) calls'

/-- `BATCH_SIZE_LIMIT` (25 in production, 100 in development). -/
def batchSizeLimit (env : Env) : Nat := if env.isProduction then 25 else 100

/-- `FALLBACK_LIMIT` (5 in production, 10 in development). -/
def fallbackLimit (env : Env) : Nat := if env.isProduction then 5 else 10

/-- The rows of this source already cached for the current candidate
destinations: the single bulk `findMany({ sourceId, destinationId: { in ... } })`. -/
def existingForSource (db : Db) (sid : Nat) : List DistanceRow :=
  db.distances.filter (fun r =>
    r.sourceId == sid && ((sortedDests db).map (fun d => d.id)).contains r.destinationId)

/-- The candidate destinations without a cached row for this source. -/
def missingForSource (db : Db) (sid : Nat) : List Destination :=
  (sortedDests db).filter (fun d =>
    !((existingForSource db sid).any (fun r => r.destinationId == d.id)))

/-- The success response of `calculateDistancesFromSource`/`ToDestination`
with its debugging headers. -/
def finishResponse (env : Env) (kind : String) (rows : List DistanceRow) : ApiResponse :=
  { status := 200, rows := rows, errorMsg := none, timeoutFlag := false,
    headers := [("X-Calculation-Type", kind),
                ("X-Total-Results", toString rows.length),
                ("X-Environment", if env.isProduction then "production" else "development")] }

/-- `calculateDistancesFromSource` of part_011 (lines 282-446): bulk existence
check, batch computation under a timeout race with per-pair fallback on a
thrown batch path, then the 200 response with debugging headers. -/
def p11FromSource (env : Env) (db : Db) (sid : Nat) : ScopeOut :=
  match findSource db sid with
  | none => { response := jsonError 404 "Source not found", db := db, log := RunLog.empty }
  | some source =>
    if env.earlyTimeout then
      { response := jsonTimeout 408 "Request timeout - please try with filters to reduce dataset size",
        db := db, log := RunLog.empty }
    else
      let dests := sortedDests db
      let existing := existingForSource db sid
      let missing := missingForSource db sid
      let log0 := { RunLog.empty with bulkExistQueries := [([sid], dests.map (fun d => d.id))] }
      if missing.isEmpty then
        { response := finishResponse env "source-to-destinations" existing, db := db, log := log0 }
      else
        if env.preBatchTimeout then
          -- early return before the batch: plain rows when any were assembled,
          -- otherwise a timeout error object
          if existing.isEmpty then
            { response := jsonTimeout 408 "Partial results - calculation timeout",
              db := db, log := log0 }
          else
            { response := jsonRows existing, db := db, log := log0 }
        else
          let toProcess := missing.take (min (batchSizeLimit env) missing.length)
          let origins := [srcLoc source]
          let destLocs := toProcess.map destLoc
          let items := (toProcess.map (fun d =>
            { sid := sid, did := d.id, sLoc := srcLoc source, dLoc := destLoc d : PairItem }))
          let fbItems := (missing.take (min (fallbackLimit env) missing.length)).map (fun d =>
            { sid := sid, did := d.id, sLoc := srcLoc source, dLoc := destLoc d : PairItem })
          if env.batchWins then
            match gmBatchCalculateDistances env origins destLocs with
            | .error _ =>
              -- missing API key: the batch throws before any HTTP call, the
              -- catch runs the fallback loop (whose calls then also throw)
              let fb := fallbackLoop env fbItems db [] []
              { response := finishResponse env "source-to-destinations" (existing ++ fb.2.1),
                db := fb.1,
                log := { log0 with singleCalls := fb.2.2, batchArgs := some (origins, destLocs) } }
            | .ok bout =>
              let log1 := { log0 with
                chunkCalls := bout.callLog
                batchArgs := some (origins, destLocs) }
              match bout.matrix.head? with
              | none =>
                { response := finishResponse env "source-to-destinations" existing,
                  db := db, log := log1 }
              | some row0 =>
                let pb := persistBatchLoop env (items.zip row0) db []
                if pb.2.2 then
                  let fb := fallbackLoop env fbItems pb.1 [] []
                  { response := finishResponse env "source-to-destinations"
                      (existing ++ pb.2.1 ++ fb.2.1),
                    db := fb.1, log := { log1 with singleCalls := fb.2.2 } }
                else
                  { response := finishResponse env "source-to-destinations" (existing ++ pb.2.1),
                    db := pb.1, log := log1 }
          else
            -- the timeout promise wins the race: the await throws and the
            -- catch runs the per-pair fallback (the abandoned batch promise
            -- keeps running in the background but writes nothing)
            let fb := fallbackLoop env fbItems db [] []
            { response := finishResponse env "source-to-destinations" (existing ++ fb.2.1),
              db := fb.1,
              log := { log0 with singleCalls := fb.2.2, batchArgs := some (origins, destLocs) } }

/-- The rows of this destination already cached for the current sources: the
bulk `findMany({ destinationId, sourceId: { in ... } })`. -/
def existingForDest (db : Db) (did : Nat) : List DistanceRow :=
  db.distances.filter (fun r =>
    r.destinationId == did && ((sortedSources db).map (fun s => s.id)).contains r.sourceId)

/-- The sources without a cached row for this destination. -/
def missingForDest (db : Db) (did : Nat) : List Source :=
  (sortedSources db).filter (fun s =>
    !((existingForDest db did).any (fun r => r.sourceId == s.id)))

/-- `calculateDistancesToDestination` of part_011 (lines 448-589): the mirror
image of the from-source handler (no pre-flight or pre-batch clock checks,
batch over source locations against the single destination). -/
def p11ToDest (env : Env) (db : Db) (did : Nat) : ScopeOut :=
  match findDest db did with
  | none =>
    { response := jsonError 404 "Destination not found or coordinates missing",
      db := db, log := RunLog.empty }
  | some dest =>
    if !(truthyNum dest.latitude) || !(truthyNum dest.longitude) then
      { response := jsonError 404 "Destination not found or coordinates missing",
        db := db, log := RunLog.empty }
    else
      let sources := sortedSources db
      let existing := existingForDest db did
      let missing := missingForDest db did
      let log0 := { RunLog.empty with
        bulkExistQueries := [(sources.map (fun s => s.id), [did])] }
      if missing.isEmpty then
        { response := finishResponse env "sources-to-destination" existing, db := db, log := log0 }
      else
        let toProcess := missing.take (min (batchSizeLimit env) missing.length)
        let sourceLocs := toProcess.map srcLoc
        let dLoc := destLoc dest
        let items := toProcess.map (fun s =>
          { sid := s.id, did := did, sLoc := srcLoc s, dLoc := dLoc : PairItem })
        let fbItems := (missing.take (min (fallbackLimit env) missing.length)).map (fun s =>
          { sid := s.id, did := did, sLoc := srcLoc s, dLoc := dLoc : PairItem })
        if env.batchWins then
          match gmBatchCalculateDistances env sourceLocs [dLoc] with
          | .error _ =>
            let fb := fallbackLoop env fbItems db [] []
            { response := finishResponse env "sources-to-destination" (existing ++ fb.2.1),
              db := fb.1,
              log := { log0 with singleCalls := fb.2.2, batchArgs := some (sourceLocs, [dLoc]) } }
          | .ok bout =>
            let log1 := { log0 with
              chunkCalls := bout.callLog
              batchArgs := some (sourceLocs, [dLoc]) }
            -- `for (i = 0; i < sourcesToProcess.length && i < batchResults.length; i++)`
            -- reading `batchResults[i][0]`
            let cells := bout.matrix.map (fun row => row.getD 0 none)
            let pb := persistBatchLoop env (items.zip cells) db []
            if pb.2.2 then
              let fb := fallbackLoop env fbItems pb.1 [] []
              { response := finishResponse env "sources-to-destination"
                  (existing ++ pb.2.1 ++ fb.2.1),
                db := fb.1, log := { log1 with singleCalls := fb.2.2 } }
            else
              { response := finishResponse env "sources-to-destination" (existing ++ pb.2.1),
                db := pb.1, log := log1 }
        else
          let fb := fallbackLoop env fbItems db [] []
          { response := finishResponse env "sources-to-destination" (existing ++ fb.2.1),
            db := fb.1,
            log := { log0 with singleCalls := fb.2.2, batchArgs := some (sourceLocs, [dLoc]) } }

/-! ### part_011 `calculateSingleDistance` (lines 183-280) -/

/-- Persist geocoded coordinates onto the destination
(`prisma.destination.update`). -/
def updateDestCoords (db : Db) (did : Nat) (loc : Loc) : Db :=
  { db with destinations := db.destinations.map (fun d =>
      if d.id == did then { d with latitude := some loc.latitude, longitude := some loc.longitude }
      else d) }

/-- `calculateSingleDistance`: cache hit short-circuit, otherwise geocode a
destination lacking (truthy) coordinates, persist the coordinates, call the
provider, persist and return the new row. An uncaught provider/create throw
surfaces as the 500 of the route-level `catch`. -/
def p11Single (env : Env) (db : Db) (sid did : Nat) : ScopeOut :=
  match findPair db.distances sid did with
  | some row =>
    { response := jsonRows [row], db := db,
      log := { RunLog.empty with singleExistQueries := [(sid, did)] } }
  | none =>
    let log0 := { RunLog.empty with singleExistQueries := [(sid, did)] }
    match findSource db sid, findDest db did with
    | none, _ =>
      { response := jsonError 404 "Source or destination not found", db := db, log := log0 }
    | some _, none =>
      { response := jsonError 404 "Source or destination not found", db := db, log := log0 }
    | some source, some dest0 =>
      -- step 1: geocode when a coordinate is falsy
      let geocoded : Except String (Option (Destination × Db)) :=
        if !(truthyNum dest0.latitude) || !(truthyNum dest0.longitude) then
          match gmGeocodeWithFallbacks env dest0.name dest0.pincode dest0.address with
          | .error e => .error e
          | .ok none => .ok none
          | .ok (some loc) =>
            .ok (some ({ dest0 with latitude := some loc.latitude, longitude := some loc.longitude },
              updateDestCoords db did loc))
        else .ok (some (dest0, db))
      match geocoded with
      | .error _ =>
        -- `geocodeAddressWithFallbacks` threw (missing key): route-level 500
        { response := jsonError 500 "Internal server error", db := db,
          log := { log0 with geocodeRuns := 1 } }
      | .ok none =>
        { response := jsonError 422
            ("Could not geocode destination \"" ++ dest0.name ++ "\". Please add coordinates manually."),
          db := db, log := { log0 with geocodeRuns := 1 } }
      | .ok (some (dest1, db1)) =>
        let log1 := { log0 with
          geocodeRuns := if !(truthyNum dest0.latitude) || !(truthyNum dest0.longitude) then 1 else 0 }
        let oLoc := srcLoc source
        let dLoc := destLoc dest1
        match gmCalculateDistance env oLoc dLoc with
        | .error _ =>
          { response := jsonError 500 "Internal server error", db := db1, log := log1 }
        | .ok none =>
          { response := jsonError 500 "Could not calculate distance", db := db1,
            log := { log1 with singleCalls := [((sid, did), (oLoc, dLoc))] } }
        | .ok (some r) =>
          let log2 := { log1 with singleCalls := [((sid, did), (oLoc, dLoc))] }
          if createThrows env db1 sid did then
            -- an uncaught ConflictError: route-level 500
            { response := jsonError 500 "Internal server error", db := db1, log := log2 }
          else
            let row := mkRowFromSingle db1.nextDistanceId sid did r
            { response := jsonRows [row], db := pushRow db1 row, log := log2 }

/-! ### part_011 `calculateAllDistances` (lines 591-685) -/

/-- Loop state of `calculateAllDistances`. -/
structure AllSt where
  results : List DistanceRow
  created : List DistanceRow
  db : Db
  count : Nat
  calls : List ((Nat × Nat) × (Loc × Loc))
  aborted : Bool
deriving Repr

/-- The nested source/destination loops of `calculateAllDistances`, flattened
over the pair list: once `calculationCount >= MAX_CALCULATIONS` both the inner
and the outer `break` fire, so nothing changes thereafter, which the `count`
guard reproduces per pair. `m` is the distance table snapshot the lookup map
was built from. An uncaught throw (missing key, create conflict) aborts. -/
def allGo (env : Env) (m : List DistanceRow) :
    List (Source × Destination) → AllSt → AllSt
  | [], st => st
  | (s, d) :: rest, st =>
    if st.aborted then st
    else if 50 ≤ st.count then st
    else
      match lastLookup m s.id d.id with
      | some row => allGo env m rest { st with results := st.results ++ [row] }
      | none =>
        if truthyNum d.latitude && truthyNum d.longitude then
          let oLoc := srcLoc s
          let dLoc := destLoc d
          match gmCalculateDistance env oLoc dLoc with
          | .error _ => { st with aborted := true }
          | .ok none =>
            allGo env m rest { st with calls := st.calls ++ [((s.id, d.id), (oLoc, dLoc))] }
          | .ok (some r) =>
            let calls' := st.calls ++ [((s.id, d.id), (oLoc, dLoc))]
            if createThrows env st.db s.id d.id then
              { st with aborted := true, calls := calls' }
            else
              let row := mkRowFromSingle st.db.nextDistanceId s.id d.id r
              allGo env m rest { st with
                results := st.results ++ [row]
                created := st.created ++ [row]
                db := pushRow st.db row
                count := st.count + 1
                calls := calls' }
        else allGo env m rest st

/-- The flattened iteration order of the nested `for` loops of
`calculateAllDistances`: all sources (name order) times all
coordinate-bearing destinations (name order). -/
def pairsAll (db : Db) : List (Source × Destination) :=
  (sortedSources db).flatMap (fun s => (sortedDests db).map (fun d => (s, d)))

/-- Initial loop state of `calculateAllDistances`. -/
def allInit (db : Db) : AllSt :=
  { results := [], created := [], db := db, count := 0, calls := [], aborted := false }

/-- `calculateAllDistances` of part_011: all sources × coordinate-bearing
destinations, a map-backed existence check, per-pair provider calls capped at
`MAX_CALCULATIONS = 50`, and a final sort by source then destination name. -/
def p11All (env : Env) (db : Db) : ScopeOut :=
  let sources := sortedSources db
  let dests := sortedDests db
  let st := allGo env db.distances (pairsAll db) (allInit db)
  if st.aborted then
    { response := jsonError 500 "Internal server error", db := st.db,
      log := { RunLog.empty with singleCalls := st.calls, bulkExistQueries :=
        [(sources.map (fun s => s.id), dests.map (fun d => d.id))] } }
  else
    { response := jsonRows (st.results.insertionSort (fun a b => rowLeB db a b = true)),
      db := st.db,
      log := { RunLog.empty with singleCalls := st.calls, bulkExistQueries :=
        [(sources.map (fun s => s.id), dests.map (fun d => d.id))] } }

/-! ### part_011 `getExistingDistances` (lines 74-181) -/

/-- Whether the character sequence `needle` occurs at the start of `hay`. -/
def seqStartsWith : List Char → List Char → Bool
  | [], _ => true
  | _ :: _, [] => false
  | a :: as, b :: bs => a == b && seqStartsWith as bs

/-- Whether the character sequence `needle` occurs anywhere inside `hay`. -/
def seqContains (needle : List Char) : List Char → Bool
  | [] => seqStartsWith needle []
  | c :: rest => seqStartsWith needle (c :: rest) || seqContains needle rest

/-- Case-insensitive substring test (`contains` with `mode: 'insensitive'`). -/
def containsCI (hay needle : String) : Bool :=
  seqContains (needle.toList.map Char.toLower) (hay.toList.map Char.toLower)

/-- The Prisma `where` clause of `getExistingDistances`: each filter clause is
added only for a non-empty filter string, and matches the joined entity name
case-insensitively. -/
def rowMatchesFilters (db : Db) (sf df : String) (r : DistanceRow) : Bool :=
  (sf == "" || containsCI (srcNameOf db r) sf) &&
    (df == "" || containsCI (destNameOf db r) df)

/-- Pagination metadata of the list response. -/
structure PageInfo where
  page : Nat
  limit : Nat
  total : Nat
  pages : Nat
  hasMore : Bool
deriving DecidableEq, Repr

/-- Result of the paginated read path. -/
structure QueryOut where
  rows : List DistanceRow
  pagination : PageInfo
deriving DecidableEq, Repr

/-- The matching rows in `source name asc, destination name asc` order. -/
def sortedFiltered (db : Db) (sf df : String) : List DistanceRow :=
  (db.distances.filter (rowMatchesFilters db sf df)).insertionSort
    (fun a b => rowLeB db a b = true)

/-- `getExistingDistances`: count and page the filtered rows
(`skip = (page-1)*limit`, `pages = Math.ceil(total/limit)`,
`hasMore = skip + distances.length < totalCount`). -/
def getExistingDistances (db : Db) (page limit : Nat) (sf df : String) : QueryOut :=
  let skip := (page - 1) * limit
  let totalCount := (db.distances.filter (rowMatchesFilters db sf df)).length
  let rows := ((sortedFiltered db sf df).drop skip).take limit
  { rows := rows
    pagination :=
      { page := page, limit := limit, total := totalCount
        pages := (totalCount + limit - 1) / limit
        hasMore := decide (skip + rows.length < totalCount) } }

/-! ### part_008 `calculateDistancesFromSource` (lines 148-218): the legacy
per-destination variant that re-introduces the N+1 lookup pattern. -/

/-- Loop state of the part_008 per-destination loop. -/
structure P8St where
  results : List DistanceRow
  db : Db
  singleExist : List (Nat × Nat)
  calls : List ((Nat × Nat) × (Loc × Loc))
  aborted : Bool
deriving Repr

/-- `for (const destination of destinations)`: one `findUnique` per
destination, then an individual provider call and `create` for each missing
pair (both uncaught, so a throw aborts the request). -/
def p8Go (env : Env) (sid : Nat) (oLoc : Loc) :
    List Destination → P8St → P8St
  | [], st => st
  | d :: rest, st =>
    if st.aborted then st
    else
      let st := { st with singleExist := st.singleExist ++ [(sid, d.id)] }
      match findPair st.db.distances sid d.id with
      | some row => p8Go env sid oLoc rest { st with results := st.results ++ [row] }
      | none =>
        if truthyNum d.latitude && truthyNum d.longitude then
          let dLoc := destLoc d
          match gmCalculateDistance env oLoc dLoc with
          | .error _ => { st with aborted := true }
          | .ok none =>
            p8Go env sid oLoc rest { st with calls := st.calls ++ [((sid, d.id), (oLoc, dLoc))] }
          | .ok (some r) =>
            let calls' := st.calls ++ [((sid, d.id), (oLoc, dLoc))]
            if createThrows env st.db sid d.id then
              { st with aborted := true, calls := calls' }
            else
              let row := mkRowFromSingle st.db.nextDistanceId sid d.id r
              p8Go env sid oLoc rest { st with
                results := st.results ++ [row]
                db := pushRow st.db row
                calls := calls' }
        else p8Go env sid oLoc rest st

/-- The part_008 `calculateDistancesFromSource` handler. -/
def p8FromSource (env : Env) (db : Db) (sid : Nat) : ScopeOut :=
  match findSource db sid with
  | none => { response := jsonError 404 "Source not found", db := db, log := RunLog.empty }
  | some source =>
    let st := p8Go env sid (srcLoc source) (sortedDests db)
      { results := [], db := db, singleExist := [], calls := [], aborted := false }
    if st.aborted then
      { response := jsonError 500 "Internal server error", db := st.db,
        log := { RunLog.empty with singleExistQueries := st.singleExist, singleCalls := st.calls } }
    else
      { response := jsonRows st.results, db := st.db,
        log := { RunLog.empty with singleExistQueries := st.singleExist, singleCalls := st.calls } }

/-! ### DELETE handlers for Source and Destination -/

/-- Result of a DELETE route. -/
structure DeleteOut where
  status : Nat
  deletedDistances : Option Nat
  entityName : Option String
  db : Db
deriving Repr

/-- Modelled from the spec: the Prisma schema (not included under `src/`)
declares `onDelete: Cascade` on `Distance`'s foreign keys, so
`prisma.source.delete` removes the Source row and every Distance row
referencing it ("Deleting a Source cascades deletion of all Distance records
referencing it"). -/
def cascadeDeleteSource (db : Db) (sid : Nat) : Db :=
  { db with
    sources := db.sources.filter (fun s => s.id != sid)
    distances := db.distances.filter (fun r => r.sourceId != sid) }

/-- Modelled from the spec: `prisma.destination.delete` removes the
Destination row and, by the schema's `onDelete: Cascade`, every Distance row
referencing it. -/
def cascadeDeleteDest (db : Db) (did : Nat) : Db :=
  { db with
    destinations := db.destinations.filter (fun d => d.id != did)
    distances := db.distances.filter (fun r => r.destinationId != did) }

/-- The Source DELETE handler: existence check, count of related distances,
cascading delete, response reporting the count. -/
def deleteSourceHandler (db : Db) (sid : Nat) : DeleteOut :=
  match findSource db sid with
  | none => { status := 404, deletedDistances := none, entityName := none, db := db }
  | some s =>
    let n := (db.distances.filter (fun r => r.sourceId == sid)).length
    { status := 200, deletedDistances := some n, entityName := some s.name,
      db := cascadeDeleteSource db sid }

/-- The Destination DELETE handler. -/
def deleteDestHandler (db : Db) (did : Nat) : DeleteOut :=
  match findDest db did with
  | none => { status := 404, deletedDistances := none, entityName := none, db := db }
  | some d =>
    let n := (db.distances.filter (fun r => r.destinationId == did)).length
    { status := 200, deletedDistances := some n, entityName := some d.name,
      db := cascadeDeleteDest db did }

/-! ### Specification-side definitions used in theorem statements -/

/-- The fallback strategy list exactly as the specification words it: most
specific first — name+address+pincode+region (when both pincode and address
are present), name+pincode+region and pincode+region (when pincode is
present), name+address+region (when address is present), then name+region.
`geocodeAddressWithFallbacks` is compared against scanning this list. -/
def fallbackQueries (name : String) (pincode address : Option String) : List String :=
  (if truthyStr pincode && truthyStr address then
    [name ++ ", " ++ address.getD "" ++ ", " ++ pincode.getD "" ++ ", Tamil Nadu, India"]
   else []) ++
  (if truthyStr pincode then
    [name ++ ", " ++ pincode.getD "" ++ ", Tamil Nadu, India",
     pincode.getD "" ++ ", Tamil Nadu, India"]
   else []) ++
  (if truthyStr address then
    [name ++ ", " ++ address.getD "" ++ ", Tamil Nadu, India"]
   else []) ++
  [name ++ ", Tamil Nadu, India"]

/-- The chunk of size `n` that position `i` of `l` falls into. -/
def chunkAt (n : Nat) (l : List α) (i : Nat) : List α :=
  (l.drop (n * (i / n))).take n

/-- The pair key of a Distance row. -/
def idpair (r : DistanceRow) : Nat × Nat := (r.sourceId, r.destinationId)

/-- The pair key of a (Source, Destination) candidate. -/
def pid (p : Source × Destination) : Nat × Nat := (p.1.id, p.2.id)

/-- Placeholder row for `Option.getD` on lookups proven to succeed. -/
def dummyRow : DistanceRow :=
  { id := 0, sourceId := 0, destinationId := 0, distance := 0,
    duration := none, route := none, directionsUrl := none }

/-! ### Concrete fixtures for witnesses and counterexamples -/

/-- Fixture source. -/
def fxS1 : Source := { id := 1, name := "A", latitude := 13, longitude := 80, address := none }

/-- Fixture destination with coordinates, cached against `fxS1`. -/
def fxD1 : Destination :=
  { id := 1, name := "X", pincode := some "600001", address := none,
    latitude := some 12, longitude := some 79 }

/-- Fixture destination with coordinates, not cached. -/
def fxD2 : Destination :=
  { id := 2, name := "Y", pincode := none, address := none,
    latitude := some 11, longitude := some 78 }

/-- Fixture destination without coordinates (geocoding target). -/
def fxD3 : Destination :=
  { id := 3, name := "Z", pincode := some "600002", address := some "Main Rd",
    latitude := none, longitude := none }

/-- The cached row for the pair (fxS1, fxD1). -/
def fxRow11 : DistanceRow :=
  { id := 1, sourceId := 1, destinationId := 1, distance := 4230,
    duration := some 58, route := none, directionsUrl := none }

/-- Fixture database: one source, two coordinate-bearing destinations, one
cached pair. -/
def fxDb : Db :=
  { sources := [fxS1], destinations := [fxD1, fxD2], distances := [fxRow11],
    nextDistanceId := 2 }

/-- Fixture database with no cached rows. -/
def fxDbEmpty : Db :=
  { sources := [fxS1], destinations := [fxD1, fxD2], distances := [],
    nextDistanceId := 1 }

/-- Fixture database whose only destination lacks coordinates. -/
def fxDbGeo : Db :=
  { sources := [fxS1], destinations := [fxD3], distances := [], nextDistanceId := 1 }

/-- A successful Routes API entry (5 km, 10 minutes). -/
def fxRoute : RouteEntry :=
  { condition := "ROUTE_EXISTS", distanceMeters := some 5000, duration := some 600 }

/-- A no-route Routes API entry. -/
def fxNoRoute : RouteEntry :=
  { condition := "ROUTE_NOT_FOUND", distanceMeters := none, duration := none }

/-- A successful matrix element (5 km, 10 minutes). -/
def fxElem : RawElem := { status := "OK", distanceMeters := 5000, durationSeconds := 600 }

/-- Environment in which every provider call succeeds. -/
def fxEnvOk : Env :=
  { keyConfigured := true, isProduction := true
    routes := fun _ _ => .ok [fxRoute]
    matrix := fun ob dc => some (ob.map (fun _ => { elements := dc.map (fun _ => fxElem) }))
    geocode := fun _ => none
    earlyTimeout := false, preBatchTimeout := false, batchWins := true
    createConflict := fun _ _ => false }

/-- Environment whose pre-batch wall-clock check fires. -/
def fxEnvPreTimeout : Env := { fxEnvOk with preBatchTimeout := true }

/-- Environment in which a concurrent run has already written pair (1, 1). -/
def fxEnvConflict : Env := { fxEnvOk with createConflict := fun _ d => d == 1 }

/-- Environment without a configured API key. -/
def fxEnvNoKey : Env := { fxEnvOk with keyConfigured := false }

/-- Environment whose Routes API calls fail at the transport level. -/
def fxEnvFail : Env := { fxEnvOk with routes := fun _ _ => .fail }

/-- Environment whose Routes API reports no viable route. -/
def fxEnvNoRoute : Env := { fxEnvOk with routes := fun _ _ => .ok [fxNoRoute] }

/-- Environment where geocoding succeeds but distance computation fails. -/
def fxEnvGeo : Env :=
  { fxEnvFail with geocode := fun _ => some { latitude := 10, longitude := 77 } }

/-! ## Basic lemmas -/

theorem length_filter_partition (p : α → Bool) (l : List α) :
    (l.filter p).length + (l.filter (fun a => !(p a))).length = l.length := by
  induction l with
  | nil => rfl
  | cons a l ih =>
    by_cases h : p a = true <;> simp [List.filter, h] <;> omega

/-! ## C5 — geocoding fallback strategy order -/

/-- C5: for every input, `geocodeAddressWithFallbacks` scans exactly the
specification's strategy list in order — name+address+pincode+region (when
both present), name+pincode+region, pincode+region (when pincode present),
name+address+region (when address present), name+region — and returns the
first hit, or absent when every applicable strategy fails
(`List.findSome?` over `fallbackQueries`). -/
theorem c5_geocode_strategy_order (env : Env) (name : String)
    (pincode address : Option String) (hk : env.keyConfigured = true) :
    gmGeocodeWithFallbacks env name pincode address =
      .ok ((fallbackQueries name pincode address).findSome? env.geocode) := by
  unfold gmGeocodeWithFallbacks fallbackQueries
  rw [hk]
  cases hp : truthyStr pincode <;> cases ha : truthyStr address <;>
    simp only [Bool.and_self, Bool.true_and, Bool.false_and, Bool.and_true, Bool.and_false,
      if_true, if_false, Bool.not_true, Bool.false_eq_true, List.nil_append, List.cons_append,
      List.findSome?_cons, List.findSome?_nil, ite_true, ite_false, Bool.not_false] <;>
    (repeat' split) <;> simp_all

/-- Witness for C5 at a concrete environment: the second strategy
(name+pincode+region) is the first to succeed. -/
theorem c5_witness :
    gmGeocodeWithFallbacks
        { fxEnvOk with geocode := fun q =>
            if q = "Z, 600002, Tamil Nadu, India" then some { latitude := 1, longitude := 2 }
            else none }
        "Z" (some "600002") none =
      .ok (some { latitude := 1, longitude := 2 }) := by
  rw [c5_geocode_strategy_order _ _ _ _ (by rfl)]
  rfl

/-! ## C7 — error handling of `calculateDistance` -/

/-- C7 counterexample: with a configured key, a transport-level failure of the
provider call (`fxEnvFail`, the axios promise rejects) does NOT raise — the
`catch` returns `null`, the very same `.ok none` that the no-route case
(`fxEnvNoRoute`) produces, so transport/auth failures are conflated with the
absent no-route result rather than raised as a distinct `ProviderError`. -/
theorem c7_counterexample :
    gmCalculateDistance fxEnvFail { latitude := 13, longitude := 80 }
        { latitude := 12, longitude := 79 } = .ok none ∧
    gmCalculateDistance fxEnvNoRoute { latitude := 13, longitude := 80 }
        { latitude := 12, longitude := 79 } = .ok none := by
  exact ⟨rfl, rfl⟩

/-- C7 amended: `calculateDistance` returns absent (never an exception) both
when the provider reports no viable route and on transport/auth failures,
which are caught and folded into the same `null`; the only raised error is the
missing-API-key configuration error. -/
theorem c7_absent_on_no_route_and_on_transport_failure (env : Env) (o d : Loc) :
    (env.keyConfigured = false →
      gmCalculateDistance env o d = .error "Google Maps API key is not configured") ∧
    (env.keyConfigured = true →
      (∃ v, gmCalculateDistance env o d = .ok v) ∧
      (env.routes o d = .fail → gmCalculateDistance env o d = .ok none) ∧
      (env.routes o d = .ok [] → gmCalculateDistance env o d = .ok none) ∧
      (∀ route rest, env.routes o d = .ok (route :: rest) →
        route.condition ≠ "ROUTE_EXISTS" → gmCalculateDistance env o d = .ok none)) := by
  constructor
  · intro h
    simp [gmCalculateDistance, h]
  · intro h
    refine ⟨?_, ?_, ?_, ?_⟩
    · unfold gmCalculateDistance
      simp only [h, Bool.not_true, Bool.false_eq_true, if_false]
      cases hr : env.routes o d with
      | fail => exact ⟨none, rfl⟩
      | ok routes =>
        cases routes with
        | nil => exact ⟨none, rfl⟩
        | cons r rest =>
          simp only [List.head?_cons]
          by_cases hc : (r.condition != "ROUTE_EXISTS" ||
              !truthyNum (Option.map Int.ofNat r.distanceMeters) ||
              !truthyNum (Option.map Int.ofNat r.duration)) = true
          · exact ⟨none, by rw [if_pos hc]⟩
          · exact ⟨some
              { distance := roundCentiKm (r.distanceMeters.getD 0)
                duration := roundMinutes (r.duration.getD 0)
                route := some (.routesApi r)
                directionsUrl := some (generateDirectionsUrl o d) }, by rw [if_neg hc]⟩
    · intro hr
      simp [gmCalculateDistance, h, hr]
    · intro hr
      simp [gmCalculateDistance, h, hr]
    · intro route rest hr hc
      simp [gmCalculateDistance, h, hr, hc]

/-- Witness for the amended C7 at concrete inputs. -/
theorem c7_witness :
    (∃ v, gmCalculateDistance fxEnvOk { latitude := 13, longitude := 80 }
        { latitude := 12, longitude := 79 } = .ok v) ∧
    gmCalculateDistance fxEnvNoKey { latitude := 13, longitude := 80 }
        { latitude := 12, longitude := 79 } =
      .error "Google Maps API key is not configured" := by
  constructor
  · exact (c7_absent_on_no_route_and_on_transport_failure fxEnvOk _ _).2 (by rfl) |>.1
  · exact (c7_absent_on_no_route_and_on_transport_failure fxEnvNoKey _ _).1 (by rfl)

/-! ## C9 — cascade deletion reports the exact count -/

/-- C9: deleting an existing Source removes the Source and exactly the
Distance rows referencing it (all other rows untouched), and the response
reports that count as `deletedDistances`; the analogous property holds for
deleting a Destination. -/
theorem c9_cascade_delete_exact (db : Db) (sid did : Nat) (s : Source) (d : Destination)
    (hs : findSource db sid = some s) (hd : findDest db did = some d) :
    ((deleteSourceHandler db sid).status = 200 ∧
     (deleteSourceHandler db sid).deletedDistances =
       some (db.distances.filter (fun r => r.sourceId == sid)).length ∧
     (deleteSourceHandler db sid).db.distances.length +
       (db.distances.filter (fun r => r.sourceId == sid)).length = db.distances.length ∧
     (deleteSourceHandler db sid).db.sources = db.sources.filter (fun x => x.id != sid) ∧
     (deleteSourceHandler db sid).db.destinations = db.destinations ∧
     (∀ r ∈ db.distances, r.sourceId ≠ sid → r ∈ (deleteSourceHandler db sid).db.distances) ∧
     (∀ r ∈ (deleteSourceHandler db sid).db.distances, r ∈ db.distances ∧ r.sourceId ≠ sid)) ∧
    ((deleteDestHandler db did).status = 200 ∧
     (deleteDestHandler db did).deletedDistances =
       some (db.distances.filter (fun r => r.destinationId == did)).length ∧
     (deleteDestHandler db did).db.distances.length +
       (db.distances.filter (fun r => r.destinationId == did)).length = db.distances.length ∧
     (deleteDestHandler db did).db.destinations = db.destinations.filter (fun x => x.id != did) ∧
     (deleteDestHandler db did).db.sources = db.sources ∧
     (∀ r ∈ db.distances, r.destinationId ≠ did → r ∈ (deleteDestHandler db did).db.distances) ∧
     (∀ r ∈ (deleteDestHandler db did).db.distances,
        r ∈ db.distances ∧ r.destinationId ≠ did)) := by
  constructor
  · simp only [deleteSourceHandler, hs, cascadeDeleteSource]
    refine ⟨trivial, trivial, ?_, trivial, trivial, ?_, ?_⟩
    · have := length_filter_partition (fun r : DistanceRow => r.sourceId == sid) db.distances
      simpa [bne] using by omega
    · intro r hr hne
      simp [List.mem_filter, hr, bne_iff_ne, hne]
    · intro r hr
      rw [List.mem_filter] at hr
      exact ⟨hr.1, by simpa [bne_iff_ne] using hr.2⟩
  · simp only [deleteDestHandler, hd, cascadeDeleteDest]
    refine ⟨trivial, trivial, ?_, trivial, trivial, ?_, ?_⟩
    · have := length_filter_partition (fun r : DistanceRow => r.destinationId == did) db.distances
      simpa [bne] using by omega
    · intro r hr hne
      simp [List.mem_filter, hr, bne_iff_ne, hne]
    · intro r hr
      rw [List.mem_filter] at hr
      exact ⟨hr.1, by simpa [bne_iff_ne] using hr.2⟩

/-- Witness for C9 on the fixture database: deleting source 1 (respectively
destination 1) removes exactly the one cached row and reports 1. -/
theorem c9_witness :
    (deleteSourceHandler fxDb 1).deletedDistances = some 1 ∧
    (deleteSourceHandler fxDb 1).db.distances = [] ∧
    (deleteDestHandler fxDb 1).deletedDistances = some 1 ∧
    (deleteDestHandler fxDb 1).db.distances = [] := by
  have h := c9_cascade_delete_exact fxDb 1 1 fxS1 fxD1 (by rfl) (by rfl)
  refine ⟨?_, by rfl, ?_, by rfl⟩
  · rw [h.1.2.1]; rfl
  · rw [h.2.2.1]; rfl

/-! ## C8 — filtered, ordered, paginated reads -/

theorem strLeChars_refl : ∀ x : List Char, strLeChars x x = true := by
  intro x
  induction x with
  | nil => rfl
  | cons a as ih => simp [strLeChars, ih]

theorem strLeChars_total : ∀ x y : List Char,
    strLeChars x y = true ∨ strLeChars y x = true := by
  intro x
  induction x with
  | nil => intro y; exact Or.inl rfl
  | cons a as ih =>
    intro y
    cases y with
    | nil => exact Or.inr rfl
    | cons b bs =>
      simp only [strLeChars, Bool.or_eq_true, Bool.and_eq_true, decide_eq_true_eq, beq_iff_eq]
      rcases Nat.lt_trichotomy (charKey a) (charKey b) with h | h | h
      · exact Or.inl (Or.inl h)
      · rcases ih bs with h2 | h2
        · exact Or.inl (Or.inr ⟨h, h2⟩)
        · exact Or.inr (Or.inr ⟨h.symm, h2⟩)
      · exact Or.inr (Or.inl h)

theorem charKey_inj {a b : Char} (h : charKey a = charKey b) : a = b := by
  apply Char.ext
  apply UInt32.ext
  exact h

theorem strLeChars_antisymm : ∀ x y : List Char,
    strLeChars x y = true → strLeChars y x = true → x = y := by
  intro x
  induction x with
  | nil =>
    intro y _ hyx
    cases y with
    | nil => rfl
    | cons b bs => simp [strLeChars] at hyx
  | cons a as ih =>
    intro y hxy hyx
    cases y with
    | nil => simp [strLeChars] at hxy
    | cons b bs =>
      simp only [strLeChars, Bool.or_eq_true, Bool.and_eq_true, decide_eq_true_eq,
        beq_iff_eq] at hxy hyx
      rcases hxy with h1 | ⟨h1, h1r⟩ <;> rcases hyx with h2 | ⟨h2, h2r⟩
      · omega
      · omega
      · omega
      · rw [charKey_inj h1, ih bs h1r h2r]

theorem strLeChars_trans : ∀ x y z : List Char,
    strLeChars x y = true → strLeChars y z = true → strLeChars x z = true := by
  intro x
  induction x with
  | nil => intro y z _ _; rfl
  | cons a as ih =>
    intro y z hxy hyz
    cases y with
    | nil => simp [strLeChars] at hxy
    | cons b bs =>
      cases z with
      | nil => simp [strLeChars] at hyz
      | cons c cs =>
        simp only [strLeChars, Bool.or_eq_true, Bool.and_eq_true, decide_eq_true_eq,
          beq_iff_eq] at hxy hyz ⊢
        rcases hxy with h1 | ⟨h1, h1r⟩ <;> rcases hyz with h2 | ⟨h2, h2r⟩
        · exact Or.inl (by omega)
        · exact Or.inl (by omega)
        · exact Or.inl (by omega)
        · exact Or.inr ⟨by omega, ih bs cs h1r h2r⟩

theorem strLeB_total (a b : String) : strLeB a b = true ∨ strLeB b a = true :=
  strLeChars_total a.toList b.toList

theorem strLeB_antisymm {a b : String} (h1 : strLeB a b = true) (h2 : strLeB b a = true) :
    a = b := by
  have := strLeChars_antisymm a.toList b.toList h1 h2
  cases a with
  | mk da =>
    cases b with
    | mk db =>
      simp only [String.toList] at this
      rw [this]

theorem strLeB_trans {a b c : String} (h1 : strLeB a b = true) (h2 : strLeB b c = true) :
    strLeB a c = true :=
  strLeChars_trans a.toList b.toList c.toList h1 h2

theorem rowLeB_total (db : Db) (a b : DistanceRow) :
    rowLeB db a b = true ∨ rowLeB db b a = true := by
  unfold rowLeB
  by_cases h : srcNameOf db a == srcNameOf db b
  · have hba : (srcNameOf db b == srcNameOf db a) = true := by
      rw [beq_iff_eq] at h ⊢
      exact h.symm
    rw [if_pos h, if_pos hba]
    exact strLeB_total _ _
  · have hba : ¬(srcNameOf db b == srcNameOf db a) = true := by
      rw [beq_iff_eq] at h ⊢
      exact fun he => h he.symm
    rw [if_neg h, if_neg hba]
    exact strLeB_total _ _

theorem rowLeB_trans (db : Db) (a b c : DistanceRow) (hab : rowLeB db a b = true)
    (hbc : rowLeB db b c = true) : rowLeB db a c = true := by
  unfold rowLeB at *
  by_cases h1 : srcNameOf db a == srcNameOf db b <;>
    by_cases h2 : srcNameOf db b == srcNameOf db c
  · rw [if_pos h1] at hab
    rw [if_pos h2] at hbc
    rw [beq_iff_eq] at h1 h2
    rw [if_pos (beq_iff_eq.mpr (h1.trans h2))]
    exact strLeB_trans hab hbc
  · rw [if_pos h1] at hab
    rw [if_neg h2] at hbc
    rw [beq_iff_eq] at h1
    have h3 : ¬(srcNameOf db a == srcNameOf db c) = true := by
      rw [beq_iff_eq]
      rw [h1]
      exact fun he => h2 (beq_iff_eq.mpr he)
    rw [if_neg h3, h1]
    exact hbc
  · rw [if_neg h1] at hab
    rw [if_pos h2] at hbc
    rw [beq_iff_eq] at h2
    have h3 : ¬(srcNameOf db a == srcNameOf db c) = true := by
      rw [beq_iff_eq]
      rw [← h2]
      exact fun he => h1 (beq_iff_eq.mpr he)
    rw [if_neg h3, ← h2]
    exact hab
  · rw [if_neg h1] at hab
    rw [if_neg h2] at hbc
    by_cases h3 : srcNameOf db a == srcNameOf db c
    · rw [beq_iff_eq] at h3
      rw [h3] at hab
      have := strLeB_antisymm hbc hab
      exact absurd (beq_iff_eq.mpr this) h2
    · rw [if_neg h3]
      exact strLeB_trans hab hbc

/-- C8: with a non-empty source filter, every returned row matches the
case-insensitive source-name filter (and the destination filter when given),
the page is sorted by source name then destination name, `total` counts all
matching rows across all pages, `pages = ceil(total/limit)`, and `hasMore`
holds exactly when matching rows beyond the returned page remain. -/
theorem c8_filtered_pagination (db : Db) (page limit : Nat) (sf df : String)
    (hp : 1 ≤ page) (hl : 1 ≤ limit) (hsf : sf ≠ "") :
    (∀ r ∈ (getExistingDistances db page limit sf df).rows,
        containsCI (srcNameOf db r) sf = true ∧
        (df ≠ "" → containsCI (destNameOf db r) df = true)) ∧
    List.Sorted (fun a b => rowLeB db a b = true)
      (getExistingDistances db page limit sf df).rows ∧
    (getExistingDistances db page limit sf df).pagination.total =
      (db.distances.filter (rowMatchesFilters db sf df)).length ∧
    (getExistingDistances db page limit sf df).pagination.pages =
      (getExistingDistances db page limit sf df).pagination.total ⌈/⌉ limit ∧
    ((getExistingDistances db page limit sf df).pagination.hasMore = true ↔
      (sortedFiltered db sf df).drop
        ((page - 1) * limit + (getExistingDistances db page limit sf df).rows.length) ≠ []) := by
  refine ⟨?_, ?_, ?_, ?_, ?_⟩
  · intro r hr
    have hmem : r ∈ sortedFiltered db sf df := by
      have h1 := List.take_sublist limit ((sortedFiltered db sf df).drop ((page - 1) * limit))
      have h2 := List.drop_sublist ((page - 1) * limit) (sortedFiltered db sf df)
      exact (h1.trans h2).mem hr
    have hfil : r ∈ db.distances.filter (rowMatchesFilters db sf df) := by
      unfold sortedFiltered at hmem
      exact (List.mem_insertionSort _).mp hmem
    have hmatch := (List.mem_filter.mp hfil).2
    unfold rowMatchesFilters at hmatch
    simp only [Bool.and_eq_true, Bool.or_eq_true, beq_iff_eq] at hmatch
    constructor
    · rcases hmatch.1 with h | h
      · exact absurd h hsf
      · exact h
    · intro hdf
      rcases hmatch.2 with h | h
      · exact absurd h hdf
      · exact h
  · haveI : IsTotal DistanceRow (fun a b => rowLeB db a b = true) := ⟨rowLeB_total db⟩
    haveI : IsTrans DistanceRow (fun a b => rowLeB db a b = true) :=
      ⟨fun a b c => rowLeB_trans db a b c⟩
    have hs : List.Sorted (fun a b => rowLeB db a b = true) (sortedFiltered db sf df) :=
      List.sorted_insertionSort _ _
    have h1 := List.take_sublist limit ((sortedFiltered db sf df).drop ((page - 1) * limit))
    have h2 := List.drop_sublist ((page - 1) * limit) (sortedFiltered db sf df)
    exact List.Pairwise.sublist (h1.trans h2) hs
  · rfl
  · rw [Nat.ceilDiv_eq_add_pred_div]; rfl
  · have hlen : (sortedFiltered db sf df).length =
        (db.distances.filter (rowMatchesFilters db sf df)).length :=
      (List.perm_insertionSort _ _).length_eq
    simp only [getExistingDistances]
    rw [decide_eq_true_iff, Ne, List.drop_eq_nil_iff, not_le, ← hlen]

/-- Witness for C8 on the fixture database, with the source filter "a"
matching source "A" case-insensitively. -/
theorem c8_witness :
    (∀ r ∈ (getExistingDistances fxDb 1 10 "a" "").rows,
        containsCI (srcNameOf fxDb r) "a" = true ∧
        ("" ≠ "" → containsCI (destNameOf fxDb r) "" = true)) ∧
    List.Sorted (fun a b => rowLeB fxDb a b = true)
      (getExistingDistances fxDb 1 10 "a" "").rows ∧
    (getExistingDistances fxDb 1 10 "a" "").pagination.total =
      (fxDb.distances.filter (rowMatchesFilters fxDb "a" "")).length ∧
    (getExistingDistances fxDb 1 10 "a" "").pagination.pages =
      (getExistingDistances fxDb 1 10 "a" "").pagination.total ⌈/⌉ 10 ∧
    ((getExistingDistances fxDb 1 10 "a" "").pagination.hasMore = true ↔
      (sortedFiltered fxDb "a" "").drop
        ((1 - 1) * 10 + (getExistingDistances fxDb 1 10 "a" "").rows.length) ≠ []) :=
  c8_filtered_pagination fxDb 1 10 "a" "" (by decide) (by decide) (by decide)

/-! ## Chunking lemmas for `batchCalculateDistances` -/

theorem chunksOfGo_fuel {n : Nat} (hn : n ≠ 0) :
    ∀ (f1 f2 : Nat) (l : List α), l.length ≤ f1 → l.length ≤ f2 →
      chunksOfGo n f1 l = chunksOfGo n f2 l := by
  intro f1
  induction f1 with
  | zero =>
    intro f2 l h1 _
    cases l with
    | nil => cases f2 <;> rfl
    | cons x xs => simp at h1
  | succ f ih =>
    intro f2 l h1 h2
    cases l with
    | nil => cases f2 <;> rfl
    | cons x xs =>
      cases f2 with
      | zero => simp at h2
      | succ f2' =>
        simp only [chunksOfGo]
        congr 1
        apply ih
        · simp only [List.length_drop, List.length_cons]
          simp only [List.length_cons] at h1
          omega
        · simp only [List.length_drop, List.length_cons]
          simp only [List.length_cons] at h2
          omega

theorem chunksOf_nil (n : Nat) : chunksOf n ([] : List α) = [] := by
  by_cases h : n = 0 <;> simp [chunksOf, h, chunksOfGo]

theorem chunksOf_cons (n : Nat) (hn : n ≠ 0) (x : α) (xs : List α) :
    chunksOf n (x :: xs) = ((x :: xs).take n) :: chunksOf n ((x :: xs).drop n) := by
  unfold chunksOf
  rw [if_neg hn, if_neg hn]
  show chunksOfGo n (xs.length + 1) (x :: xs) = _
  simp only [chunksOfGo]
  congr 1
  apply chunksOfGo_fuel hn
  · simp only [List.length_drop, List.length_cons]
    omega
  · exact le_refl _

/-- Strong induction tailored to the chunking recursion. -/
theorem chunksOf_induction {n : Nat} (_hn : n ≠ 0) {motive : List α → Prop}
    (h0 : motive ([] : List α))
    (hstep : ∀ (x : α) (xs : List α), motive ((x :: xs).drop n) → motive (x :: xs)) :
    ∀ l : List α, motive l := by
  have key : ∀ (L : Nat) (l : List α), l.length ≤ L → motive l := by
    intro L
    induction L with
    | zero =>
      intro l h
      cases l with
      | nil => exact h0
      | cons x xs => simp at h
    | succ L ih =>
      intro l _
      cases l with
      | nil => exact h0
      | cons x xs =>
        apply hstep
        apply ih
        simp only [List.length_drop, List.length_cons]
        rename_i h
        simp only [List.length_cons] at h
        omega
  exact fun l => key l.length l (le_refl _)

theorem chunksOf_eq_cons (n : Nat) (hn : n ≠ 0) (l : List α) (hl : l ≠ []) :
    chunksOf n l = l.take n :: chunksOf n (l.drop n) := by
  cases l with
  | nil => exact absurd rfl hl
  | cons x xs => exact chunksOf_cons n hn x xs

theorem chunksOf_zero (l : List α) : chunksOf 0 l = [] := by
  simp [chunksOf]

theorem mem_chunksOf_length_le {n : Nat} {l c : List α} (h : c ∈ chunksOf n l) :
    c.length ≤ n := by
  by_cases hn : n = 0
  · rw [hn, chunksOf_zero] at h
    simp at h
  · induction l using chunksOf_induction hn with
    | h0 => rw [chunksOf_nil] at h; simp at h
    | hstep x xs ih =>
      rw [chunksOf_cons n hn] at h
      rcases List.mem_cons.mp h with h | h
      · subst h; simp [List.length_take]
      · exact ih h

theorem chunksOf_flatten {n : Nat} (hn : n ≠ 0) (l : List α) :
    (chunksOf n l).flatten = l := by
  induction l using chunksOf_induction hn with
  | h0 => rw [chunksOf_nil]; rfl
  | hstep x xs ih =>
    rw [chunksOf_cons n hn]
    simp only [List.flatten_cons, ih]
    exact List.take_append_drop n (x :: xs)

theorem chunksOf_ne_nil {n : Nat} (hn : n ≠ 0) (l : List α) (hl : l ≠ []) :
    chunksOf n l ≠ [] := by
  rw [chunksOf_eq_cons n hn l hl]
  simp

theorem ceil_div_step {n : Nat} (hn : 0 < n) (m : Nat) (hm : 0 < m) :
    ((m - n) + n - 1) / n + 1 = (m + n - 1) / n := by
  rcases Nat.lt_or_ge m n with h | h
  · have h1 : m - n = 0 := by omega
    have h2 : (0 + n - 1) / n = 0 := Nat.div_eq_of_lt (by omega)
    rw [h1, h2]
    have h3 : (m + n - 1) / n = (m + n - 1 - n) / n + 1 := Nat.div_eq_sub_div hn (by omega)
    have h4 : (m + n - 1 - n) / n = 0 := Nat.div_eq_of_lt (by omega)
    omega
  · have h3 : (m + n - 1) / n = (m + n - 1 - n) / n + 1 := Nat.div_eq_sub_div hn (by omega)
    have h5 : m - n + n - 1 = m + n - 1 - n := by omega
    rw [h5, h3]

theorem chunksOf_length {n : Nat} (hn : 0 < n) (l : List α) :
    (chunksOf n l).length = (l.length + n - 1) / n := by
  have hne : n ≠ 0 := by omega
  induction l using chunksOf_induction hne with
  | h0 =>
    rw [chunksOf_nil]
    simp only [List.length_nil]
    have h2 : (0 + n - 1) / n = 0 := Nat.div_eq_of_lt (by omega)
    omega
  | hstep x xs ih =>
    rw [chunksOf_cons n hne]
    simp only [List.length_cons, ih, List.length_drop]
    have := ceil_div_step hn (xs.length + 1) (by omega)
    simp only [List.length_cons] at this
    omega

theorem getD_map_of_lt (f : α → β) (l : List α) (n : Nat) (h : n < l.length) (d : β) (d' : α) :
    (l.map f).getD n d = f (l.getD n d') := by
  rw [List.getD_eq_getElem?_getD, List.getElem?_map, List.getElem?_eq_getElem h,
    List.getD_eq_getElem?_getD, List.getElem?_eq_getElem h]
  rfl

theorem mod_lt_chunkAt_length {n i : Nat} (hn : 0 < n) {l : List α} (hi : i < l.length) :
    i % n < (chunkAt n l i).length := by
  unfold chunkAt
  simp only [List.length_take, List.length_drop, lt_min_iff]
  have hdm := Nat.div_add_mod i n
  have hm : i % n < n := Nat.mod_lt i hn
  omega

theorem chunkAt_getD {n i : Nat} (hn : 0 < n) {l : List α} (hi : i < l.length) (d : α) :
    (chunkAt n l i).getD (i % n) d = l.getD i d := by
  unfold chunkAt
  have hm : i % n < n := Nat.mod_lt i hn
  rw [List.getD_eq_getElem?_getD, List.getElem?_take, if_pos hm, List.getElem?_drop,
    Nat.div_add_mod, List.getD_eq_getElem?_getD]

theorem flatMap_chunksOf_getD {n : Nat} (hn : 0 < n) (g : List α → List β)
    (hg : ∀ c, (g c).length = c.length) (dflt : β) (l : List α) :
    ∀ i, i < l.length →
      ((chunksOf n l).flatMap g).getD i dflt = (g (chunkAt n l i)).getD (i % n) dflt := by
  have hn0 : n ≠ 0 := by omega
  induction l using chunksOf_induction hn0 with
  | h0 => intro i hi; simp at hi
  | hstep x xs ih =>
    intro i hi
    rw [chunksOf_cons n hn0, List.flatMap_cons]
    rcases Nat.lt_or_ge i n with hin | hin
    · have hlen : i < (g ((x :: xs).take n)).length := by
        rw [hg, List.length_take]
        simp only [lt_min_iff]
        exact ⟨hin, hi⟩
      rw [List.getD_append _ _ _ _ hlen]
      have hdiv : i / n = 0 := Nat.div_eq_of_lt hin
      have hmod : i % n = i := Nat.mod_eq_of_lt hin
      unfold chunkAt
      rw [hdiv, hmod]
      simp
    · have hlen : (g ((x :: xs).take n)).length = n := by
        rw [hg, List.length_take]
        exact min_eq_left (by omega)
      rw [List.getD_append_right _ _ _ _ (by omega), hlen]
      have hi' : i - n < ((x :: xs).drop n).length := by
        simp only [List.length_drop]
        omega
      rw [ih (i - n) hi']
      have hchunk : chunkAt n ((x :: xs).drop n) (i - n) = chunkAt n (x :: xs) i := by
        unfold chunkAt
        rw [List.drop_drop]
        congr 1
        have hdiv : i / n = (i - n) / n + 1 := Nat.div_eq_sub_div hn hin
        rw [hdiv]
        ring
      have hmod : (i - n) % n = i % n := (Nat.mod_eq_sub_mod hin).symm
      rw [hchunk, hmod]

/-! ## `appendRows` stitching lemmas -/

theorem appendRows_nil_left (l : List (List α)) : appendRows [] l = l := by
  induction l with
  | nil => simp [appendRows]
  | cons a l ih => simp [appendRows, ih]

theorem appendRows_map {γ : Type} (ob : List γ) (f g : γ → List α) :
    appendRows (ob.map f) (ob.map g) = ob.map (fun o => f o ++ g o) := by
  induction ob with
  | nil => simp [appendRows]
  | cons o ob ih => simp [appendRows, ih]

theorem foldl_appendRows_map {γ δ : Type} (cs : List δ) (ob : List γ) (h : δ → γ → List α) :
    ∀ f : γ → List α,
      cs.foldl (fun acc c => appendRows acc (ob.map (fun o => h c o))) (ob.map f) =
        ob.map (fun o => f o ++ cs.flatMap (fun c => h c o)) := by
  induction cs with
  | nil => intro f; simp
  | cons c cs ih =>
    intro f
    rw [List.foldl_cons, appendRows_map, ih (fun o => f o ++ h c o)]
    simp [List.append_assoc]

theorem foldl_appendRows_from_nil {γ δ : Type} (c : δ) (cs : List δ) (ob : List γ)
    (h : δ → γ → List α) :
    (c :: cs).foldl (fun acc dc => appendRows acc (ob.map (fun o => h dc o))) [] =
      ob.map (fun o => (c :: cs).flatMap (fun dc => h dc o)) := by
  rw [List.foldl_cons, appendRows_nil_left, foldl_appendRows_map cs ob h (fun o => h c o)]
  simp

theorem flatMap_congr_left {l : List α} {f g : α → List β} (h : ∀ a ∈ l, f a = g a) :
    l.flatMap f = l.flatMap g := by
  induction l with
  | nil => rfl
  | cons a l ih =>
    rw [List.flatMap_cons, List.flatMap_cons, h a (List.mem_cons_self a l),
      ih (fun x hx => h x (List.mem_cons_of_mem a hx))]

theorem getD_replicate_self (m k : Nat) (a : α) : (List.replicate m a).getD k a = a := by
  rw [List.getD_eq_getElem?_getD, List.getElem?_replicate]
  split <;> rfl

/-! ## C6 — batch chunking and stitching -/

/-- Under a pointwise provider (each cell computed by `elem`, whole-chunk
failures by `fail`), the stitched matrix is the flat concatenation of the
per-chunk segments. -/
theorem gmBatchCore_matrix_pointwise (env : Env) (origins dests : List Loc)
    (elem : Loc → Loc → RawElem) (fail : List Loc → List Loc → Bool)
    (hm : ∀ ob dc, env.matrix ob dc =
      if fail ob dc = true then none
      else some (ob.map (fun o => { elements := dc.map (elem o) })))
    (hd : dests ≠ []) :
    (gmBatchCore env origins dests).matrix =
      (chunksOf 10 origins).flatMap (fun ob => ob.map (fun o =>
        (chunksOf 25 dests).flatMap (fun dc =>
          if fail ob dc = true then List.replicate dc.length (none : Option DistanceResult)
          else dc.map (fun d => elemToResult (elem o d))))) := by
  have hcr : ∀ ob dc, chunkRows env ob dc = ob.map (fun o =>
      if fail ob dc = true then List.replicate dc.length (none : Option DistanceResult)
      else dc.map (fun d => elemToResult (elem o d))) := by
    intro ob dc
    unfold chunkRows
    rw [hm]
    by_cases hf : fail ob dc = true
    · simp [hf, List.map_const']
    · simp [hf, List.map_map, Function.comp]
  unfold gmBatchCore
  simp only
  apply flatMap_congr_left
  intro ob _
  rw [chunksOf_eq_cons 25 (by omega) dests hd]
  simp only [hcr]
  exact foldl_appendRows_from_nil _ _ ob _

/-- C6 counterexample: with a non-empty origin list and an empty destination
list the inner chunk loop never runs, so the result matrix is empty — zero
rows — instead of containing one (empty) row per input origin as the claim
demands for all origin and destination lists. -/
theorem c6_counterexample :
    (gmBatchCore fxEnvOk [{ latitude := 13, longitude := 80 }] []).matrix.length = 0 ∧
    ([{ latitude := 13, longitude := 80 }] : List Loc).length = 1 := by
  exact ⟨rfl, rfl⟩

/-- C6 amended: provided the destination list is non-empty, the batch adapter
issues only provider calls of at most 10 origins and 25 destinations, returns
one row per input origin with one cell per input destination in input order,
computes each cell from the provider's element for that origin/destination
(given a well-shaped pointwise provider), resolves exactly the cells of a
failed chunk to absent, and never raises when the key is configured.
(With an empty destination list the result matrix is empty.) -/
theorem c6_batch_chunking (env : Env) (origins dests : List Loc)
    (elem : Loc → Loc → RawElem) (fail : List Loc → List Loc → Bool)
    (hk : env.keyConfigured = true)
    (hm : ∀ ob dc, env.matrix ob dc =
      if fail ob dc = true then none
      else some (ob.map (fun o => { elements := dc.map (elem o) })))
    (hd : dests ≠ []) :
    gmBatchCalculateDistances env origins dests = .ok (gmBatchCore env origins dests) ∧
    (∀ c ∈ (gmBatchCore env origins dests).callLog, c.1.length ≤ 10 ∧ c.2.length ≤ 25) ∧
    (gmBatchCore env origins dests).matrix.length = origins.length ∧
    (∀ i, i < origins.length →
      ((gmBatchCore env origins dests).matrix.getD i []).length = dests.length) ∧
    (∀ i j, i < origins.length → j < dests.length →
      ((gmBatchCore env origins dests).matrix.getD i []).getD j none =
        (if fail (chunkAt 10 origins i) (chunkAt 25 dests j) = true then none
         else elemToResult (elem (origins.getD i { latitude := 0, longitude := 0 })
            (dests.getD j { latitude := 0, longitude := 0 })))) := by
  have hmx := gmBatchCore_matrix_pointwise env origins dests elem fail hm hd
  have hseg : ∀ ob (o : Loc) (dc : List Loc),
      (if fail ob dc = true then List.replicate dc.length (none : Option DistanceResult)
       else dc.map (fun d => elemToResult (elem o d))).length = dc.length := by
    intro ob o dc
    split <;> simp
  refine ⟨by simp [gmBatchCalculateDistances, hk], ?_, ?_, ?_, ?_⟩
  · intro c hc
    unfold gmBatchCore at hc
    simp only at hc
    rcases List.mem_flatMap.mp hc with ⟨ob, hob, hdc⟩
    rcases List.mem_map.mp hdc with ⟨dc, hdcm, hceq⟩
    subst hceq
    exact ⟨mem_chunksOf_length_le hob, mem_chunksOf_length_le hdcm⟩
  · rw [hmx, List.length_flatMap]
    have h1 : (chunksOf 10 origins).map (List.length ∘ (fun ob => ob.map (fun o =>
        (chunksOf 25 dests).flatMap (fun dc =>
          if fail ob dc = true then List.replicate dc.length (none : Option DistanceResult)
          else dc.map (fun d => elemToResult (elem o d)))))) =
        (chunksOf 10 origins).map List.length := by
      apply List.map_congr_left
      intro ob _
      simp
    rw [h1, ← List.length_flatten, chunksOf_flatten (by omega) origins]
  · intro i hi
    rw [hmx, flatMap_chunksOf_getD (by omega) _ (fun c => by simp) [] origins i hi,
      getD_map_of_lt _ _ _ (mod_lt_chunkAt_length (by omega) hi) []
        { latitude := 0, longitude := 0 }, List.length_flatMap]
    have h1 : (chunksOf 25 dests).map (List.length ∘ (fun dc =>
        if fail (chunkAt 10 origins i) dc = true
        then List.replicate dc.length (none : Option DistanceResult)
        else dc.map (fun d => elemToResult
          (elem ((chunkAt 10 origins i).getD (i % 10) { latitude := 0, longitude := 0 }) d)))) =
        (chunksOf 25 dests).map List.length := by
      apply List.map_congr_left
      intro dc _
      simp only [Function.comp]
      exact hseg _ _ _
    rw [h1, ← List.length_flatten, chunksOf_flatten (by omega) dests]
  · intro i j hi hj
    rw [hmx, flatMap_chunksOf_getD (by omega) _ (fun c => by simp) [] origins i hi,
      getD_map_of_lt _ _ _ (mod_lt_chunkAt_length (by omega) hi) []
        { latitude := 0, longitude := 0 },
      chunkAt_getD (by omega) hi,
      flatMap_chunksOf_getD (by omega) _ (fun c => hseg _ _ _) none dests j hj]
    by_cases hf : fail (chunkAt 10 origins i) (chunkAt 25 dests j) = true
    · rw [if_pos hf, if_pos hf]
      exact getD_replicate_self _ _ _
    · rw [if_neg hf, if_neg hf,
        getD_map_of_lt _ _ _ (mod_lt_chunkAt_length (by omega) hj) none
          { latitude := 0, longitude := 0 },
        chunkAt_getD (by omega) hj]

/-- Witness for the amended C6 at a concrete 1×1 input with an all-success
pointwise provider. -/
theorem c6_witness :
    (gmBatchCore fxEnvOk [{ latitude := 13, longitude := 80 }]
      [{ latitude := 12, longitude := 79 }]).matrix.length = 1 ∧
    ((gmBatchCore fxEnvOk [{ latitude := 13, longitude := 80 }]
      [{ latitude := 12, longitude := 79 }]).matrix.getD 0 []).getD 0 none =
      elemToResult fxElem := by
  have h := c6_batch_chunking fxEnvOk [{ latitude := 13, longitude := 80 }]
    [{ latitude := 12, longitude := 79 }] (fun _ _ => fxElem) (fun _ _ => false)
    rfl (fun _ _ => rfl) (by simp)
  refine ⟨h.2.2.1, ?_⟩
  have hc := h.2.2.2.2 0 0 (by decide) (by decide)
  rw [hc]
  rfl

/-! ## Loop lemmas for the from-source handler -/

theorem fallbackLoop_calls (env : Env) :
    ∀ (items : List PairItem) (db : Db) (acc : List DistanceRow)
      (calls : List ((Nat × Nat) × (Loc × Loc))),
      ∀ c ∈ (fallbackLoop env items db acc calls).2.2,
        c ∈ calls ∨ ∃ p ∈ items, c = ((p.sid, p.did), (p.sLoc, p.dLoc)) := by
  intro items
  induction items with
  | nil =>
    intro db acc calls c hc
    exact Or.inl hc
  | cons p rest ih =>
    intro db acc calls c hc
    have step : c ∈ calls ++ [((p.sid, p.did), (p.sLoc, p.dLoc))] ∨
          (∃ q ∈ rest, c = ((q.sid, q.did), (q.sLoc, q.dLoc))) →
        c ∈ calls ∨ ∃ q ∈ p :: rest, c = ((q.sid, q.did), (q.sLoc, q.dLoc)) := by
      intro h
      rcases h with h | ⟨q, hq, hcq⟩
      · rcases List.mem_append.mp h with h | h
        · exact Or.inl h
        · refine Or.inr ⟨p, List.mem_cons_self p rest, ?_⟩
          simpa using h
      · exact Or.inr ⟨q, List.mem_cons_of_mem p hq, hcq⟩
    unfold fallbackLoop at hc
    cases hcd : gmCalculateDistance env p.sLoc p.dLoc with
    | error e =>
      rw [hcd] at hc
      rcases ih _ _ _ _ hc with h | ⟨q, hq, hcq⟩
      · exact Or.inl h
      · exact Or.inr ⟨q, List.mem_cons_of_mem p hq, hcq⟩
    | ok res =>
      rw [hcd] at hc
      cases res with
      | none => exact step (ih _ _ _ _ hc)
      | some r =>
        dsimp only at hc
        by_cases hct : createThrows env db p.sid p.did = true
        · rw [if_pos hct] at hc
          exact step (ih _ _ _ _ hc)
        · rw [if_neg hct] at hc
          exact step (ih _ _ _ _ hc)

theorem fallbackLoop_calls_length (env : Env) :
    ∀ (items : List PairItem) (db : Db) (acc : List DistanceRow)
      (calls : List ((Nat × Nat) × (Loc × Loc))),
      (fallbackLoop env items db acc calls).2.2.length ≤ calls.length + items.length := by
  intro items
  induction items with
  | nil => intro db acc calls; simp [fallbackLoop]
  | cons p rest ih =>
    intro db acc calls
    unfold fallbackLoop
    cases gmCalculateDistance env p.sLoc p.dLoc with
    | error e =>
      have := ih db acc calls
      simp only [List.length_cons]
      omega
    | ok res =>
      cases res with
      | none =>
        have := ih db acc (calls ++ [((p.sid, p.did), (p.sLoc, p.dLoc))])
        simp only [List.length_append, List.length_cons, List.length_nil] at this ⊢
        omega
      | some r =>
        dsimp only
        by_cases hct : createThrows env db p.sid p.did = true
        · rw [if_pos hct]
          have := ih db acc (calls ++ [((p.sid, p.did), (p.sLoc, p.dLoc))])
          simp only [List.length_append, List.length_cons, List.length_nil] at this ⊢
          omega
        · rw [if_neg hct]
          have := ih (pushRow db (mkRowFromSingle db.nextDistanceId p.sid p.did r))
            (acc ++ [mkRowFromSingle db.nextDistanceId p.sid p.did r])
            (calls ++ [((p.sid, p.did), (p.sLoc, p.dLoc))])
          simp only [List.length_append, List.length_cons, List.length_nil] at this ⊢
          omega

theorem missingForSource_not_cached (db : Db) (sid : Nat) :
    ∀ d ∈ missingForSource db sid, findPair db.distances sid d.id = none := by
  intro d hd
  have hmiss := List.mem_filter.mp hd
  by_contra hne
  rcases Option.ne_none_iff_exists'.mp hne with ⟨r, hr⟩
  have hpr := List.find?_some hr
  have hrm := List.mem_of_find?_eq_some hr
  simp only [Bool.and_eq_true, beq_iff_eq] at hpr
  have hex : r ∈ existingForSource db sid := by
    unfold existingForSource
    rw [List.mem_filter]
    refine ⟨hrm, ?_⟩
    simp only [Bool.and_eq_true, beq_iff_eq]
    refine ⟨hpr.1, ?_⟩
    rw [List.contains_eq_any_beq, List.any_eq_true]
    refine ⟨d.id, ?_, by simp [hpr.2]⟩
    exact List.mem_map_of_mem (fun x => x.id) hmiss.1
  have hany : (existingForSource db sid).any (fun r => r.destinationId == d.id) = true :=
    List.any_eq_true.mpr ⟨r, hex, by simp [hpr.2]⟩
  have hnot := hmiss.2
  rw [Bool.not_eq_eq_eq_not, Bool.not_true, hany] at hnot
  exact absurd hnot (by simp)

theorem persistBatchLoop_no_throw (env : Env) :
    ∀ (items : List (PairItem × Option DistanceResult)) (db : Db) (acc : List DistanceRow),
      (∀ s d, env.createConflict s d = false) →
      (∀ it ∈ items, findPair db.distances it.1.sid it.1.did = none) →
      ((items.map (fun it => (it.1.sid, it.1.did))).Nodup) →
      (persistBatchLoop env items db acc).2.2 = false := by
  intro items
  induction items with
  | nil => intro db acc _ _ _; rfl
  | cons it rest ih =>
    intro db acc hc hfresh hnd
    rcases it with ⟨p, res⟩
    have hnd2 : ((p.sid, p.did) :: rest.map (fun z => (z.1.sid, z.1.did))).Nodup := by
      simpa only [List.map_cons] using hnd
    have hnd' := List.nodup_cons.mp hnd2
    cases res with
    | none =>
      exact ih db acc hc (fun q hq => hfresh q (List.mem_cons_of_mem _ hq)) hnd'.2
    | some r =>
      have hth : createThrows env db p.sid p.did = false := by
        unfold createThrows
        rw [hfresh ⟨p, some r⟩ (List.mem_cons_self _ _), hc]
        rfl
      unfold persistBatchLoop
      rw [hth]
      simp only [Bool.false_eq_true, if_false]
      apply ih
      · exact hc
      · intro q hq
        have hfq := hfresh q (List.mem_cons_of_mem _ hq)
        have hqp : ¬(p.sid = q.1.sid ∧ p.did = q.1.did) := by
          rintro ⟨h2, h3⟩
          apply hnd'.1
          rw [h2, h3]
          exact List.mem_map_of_mem (fun z => (z.1.sid, z.1.did)) hq
        unfold findPair at hfq ⊢
        unfold pushRow
        simp only [List.find?_append, hfq, Option.none_or]
        have hpred : ((mkRowFromBatch db.nextDistanceId p.sid p.did p.sLoc p.dLoc r).sourceId
            == q.1.sid &&
            (mkRowFromBatch db.nextDistanceId p.sid p.did p.sLoc p.dLoc r).destinationId
            == q.1.did) = false := by
          unfold mkRowFromBatch
          simp only
          cases hps : (p.sid == q.1.sid) <;> cases hpd : (p.did == q.1.did) <;>
            simp_all [beq_iff_eq]
        rw [List.find?_cons_of_neg _ (by rw [hpred]; exact Bool.false_ne_true),
          List.find?_nil]
      · exact hnd'.2

theorem chunksOf_singleton {n : Nat} (hn : n ≠ 0) (a : α) : chunksOf n [a] = [[a]] := by
  rw [chunksOf_cons n hn]
  rw [List.take_of_length_le (by simp; omega), List.drop_of_length_le (by simp; omega),
    chunksOf_nil]

theorem gmBatchCore_callLog_length (env : Env) (origins dests : List Loc) :
    (gmBatchCore env origins dests).callLog.length =
      (chunksOf 10 origins).length * (chunksOf 25 dests).length := by
  unfold gmBatchCore
  simp only [List.length_flatMap]
  rw [show (List.map (List.length ∘ fun ob => List.map (fun dc => (ob, dc)) (chunksOf 25 dests))
        (chunksOf 10 origins)) =
      List.map (fun _ => (chunksOf 25 dests).length) (chunksOf 10 origins) from
    List.map_congr_left (fun ob _ => by simp)]
  rw [List.map_const', List.sum_replicate, smul_eq_mul]

theorem sortedDests_ids_nodup (db : Db)
    (hD : (db.destinations.map (fun d => d.id)).Nodup) :
    ((sortedDests db).map (fun d => d.id)).Nodup := by
  have hperm : (sortedDests db).Perm
      (db.destinations.filter (fun d => d.latitude.isSome && d.longitude.isSome)) :=
    List.perm_insertionSort _ _
  have hsub : ((db.destinations.filter
      (fun d => d.latitude.isSome && d.longitude.isSome)).map (fun d => d.id)).Sublist
      (db.destinations.map (fun d => d.id)) :=
    List.Sublist.map _ (List.filter_sublist _)
  exact ((hperm.map _).nodup_iff).mpr (List.Nodup.sublist hsub hD)

theorem missingForSource_ids_nodup (db : Db) (sid : Nat)
    (hD : (db.destinations.map (fun d => d.id)).Nodup) :
    ((missingForSource db sid).map (fun d => d.id)).Nodup :=
  List.Nodup.sublist (List.Sublist.map _ (List.filter_sublist _)) (sortedDests_ids_nodup db hD)

theorem gmBatch_ok_inv (env : Env) (origins dests : List Loc) (b : BatchOut)
    (h : gmBatchCalculateDistances env origins dests = .ok b) :
    b = gmBatchCore env origins dests := by
  unfold gmBatchCalculateDistances at h
  by_cases hk : env.keyConfigured = true
  · simp only [hk, Bool.not_true, Bool.false_eq_true, if_false] at h
    exact (Except.ok.injEq _ _).mp h |>.symm
  · simp only [Bool.not_eq_true] at hk
    simp [hk] at h

theorem zip_map_fst_sublist (l : List α) (l' : List β) :
    ((l.zip l').map Prod.fst).Sublist l := by
  induction l generalizing l' with
  | nil => simp
  | cons a l ih =>
    cases l' with
    | nil => simp
    | cons b l' =>
      simp only [List.zip_cons_cons, List.map_cons]
      exact List.Sublist.cons₂ a (ih l')

theorem pair_ids_nodup (l : List Destination) (sid : Nat)
    (h : (l.map (fun d => d.id)).Nodup) : (l.map (fun d => (sid, d.id))).Nodup := by
  have heq : l.map (fun d => (sid, d.id)) =
      (l.map (fun d => d.id)).map (fun i => (sid, i)) := by
    rw [List.map_map]
    rfl
  rw [heq]
  exact List.Nodup.map (fun a b hab => by simpa using hab) h

/-- Per-branch shape of the instrumentation log of the part_011 from-source
handler: one bulk existence query over all candidate pairs, no per-pair
existence lookups, provider activity confined to one batch invocation over
the missing pairs and/or the fallback loop over the missing pairs. -/
theorem p11FromSource_log_shape (env : Env) (db : Db) (sid : Nat) (src : Source)
    (hs : findSource db sid = some src) (he : env.earlyTimeout = false) :
    (p11FromSource env db sid).log.bulkExistQueries =
      [([sid], (sortedDests db).map (fun d => d.id))] ∧
    (p11FromSource env db sid).log.singleExistQueries = [] ∧
    ((p11FromSource env db sid).log.singleCalls = [] ∨
      ∃ db', (p11FromSource env db sid).log.singleCalls =
        (fallbackLoop env (((missingForSource db sid).take
          (min (fallbackLimit env) (missingForSource db sid).length)).map (fun d =>
            { sid := sid, did := d.id, sLoc := srcLoc src, dLoc := destLoc d }))
          db' [] []).2.2) ∧
    ((p11FromSource env db sid).log.chunkCalls = [] ∨
      ∃ bout, gmBatchCalculateDistances env [srcLoc src]
          (((missingForSource db sid).take
            (min (batchSizeLimit env) (missingForSource db sid).length)).map destLoc) =
          .ok bout ∧
        (p11FromSource env db sid).log.chunkCalls = bout.callLog) ∧
    ((p11FromSource env db sid).log.batchArgs = none ∨
      (p11FromSource env db sid).log.batchArgs = some ([srcLoc src],
        ((missingForSource db sid).take
          (min (batchSizeLimit env) (missingForSource db sid).length)).map destLoc)) := by
  unfold p11FromSource
  rw [hs]
  simp only [he, Bool.false_eq_true, if_false]
  repeat' split
  all_goals refine ⟨rfl, rfl, ?_, ?_, ?_⟩
  all_goals first
    | exact Or.inl rfl
    | exact Or.inr ⟨_, rfl⟩
    | exact Or.inr ⟨_, by assumption, rfl⟩
    | exact Or.inr rfl

/-! ## C2 — bulk existence check and provider-call bounds -/

/-- C2 counterexample: the part_008 variant of `calculateDistancesFromSource`
(cited by the claim) runs one `findUnique` existence lookup per candidate
destination — a loop of single per-pair lookups — and issues no bulk existence
query at all: on a database with two candidate destinations it performs two
single lookups and zero bulk queries, refuting "exactly one bulk existence
query, never a loop of single per-pair lookups" for that completion run.
It also issues an individual (non-batch) provider call for the missing pair. -/
theorem c2_counterexample :
    (p8FromSource fxEnvOk fxDb 1).log.bulkExistQueries = [] ∧
    (p8FromSource fxEnvOk fxDb 1).log.singleExistQueries = [(1, 1), (1, 2)] ∧
    (p8FromSource fxEnvOk fxDb 1).log.singleCalls.length = 1 := by
  exact ⟨rfl, rfl, rfl⟩

/-- C2 amended (for the part_011 bulk variant): after pre-flight checks the
run issues exactly one bulk existence query covering all candidate pairs and
no per-pair existence lookups; the batch invocation and every per-pair
fallback call target only missing (uncached) pairs; fallback calls are capped
at `FALLBACK_LIMIT`; and when the batch path succeeds (race won, key present,
no persist conflict) there are no per-pair calls and at most
`ceil(k / 25)` matrix HTTP calls for `k` missing pairs. -/
theorem c2_bulk_check_and_provider_bounds (env : Env) (db : Db) (sid : Nat) (src : Source)
    (hs : findSource db sid = some src)
    (he : env.earlyTimeout = false)
    (hD : (db.destinations.map (fun d => d.id)).Nodup) :
    (p11FromSource env db sid).log.bulkExistQueries =
      [([sid], (sortedDests db).map (fun d => d.id))] ∧
    (p11FromSource env db sid).log.singleExistQueries = [] ∧
    (∀ c ∈ (p11FromSource env db sid).log.singleCalls,
      findPair db.distances c.1.1 c.1.2 = none) ∧
    (∀ args, (p11FromSource env db sid).log.batchArgs = some args →
      args = ([srcLoc src],
        ((missingForSource db sid).take
          (min (batchSizeLimit env) (missingForSource db sid).length)).map destLoc)) ∧
    (p11FromSource env db sid).log.singleCalls.length ≤
      min (fallbackLimit env) (missingForSource db sid).length ∧
    (env.preBatchTimeout = false → env.batchWins = true → env.keyConfigured = true →
      (∀ s d, env.createConflict s d = false) →
      (p11FromSource env db sid).log.singleCalls = [] ∧
      (p11FromSource env db sid).log.chunkCalls.length ≤
        ((missingForSource db sid).length + 24) / 25) := by
  obtain ⟨h1, h2, h3, h4, h5⟩ := p11FromSource_log_shape env db sid src hs he
  refine ⟨h1, h2, ?_, ?_, ?_, ?_⟩
  · rcases h3 with h | ⟨db', hEq⟩
    · rw [h]
      intro c hc
      simp at hc
    · rw [hEq]
      intro c hc
      rcases fallbackLoop_calls env _ db' [] [] c hc with h | ⟨p, hp, hcp⟩
      · simp at h
      · rcases List.mem_map.mp hp with ⟨d, hd, hpd⟩
        subst hcp
        rw [← hpd]
        have hdm : d ∈ missingForSource db sid := List.mem_of_mem_take hd
        simpa using missingForSource_not_cached db sid d hdm
  · intro args hargs
    rcases h5 with h | h
    · rw [h] at hargs
      exact absurd hargs (by simp)
    · rw [h] at hargs
      exact (Option.some.inj hargs).symm
  · rcases h3 with h | ⟨db', hEq⟩
    · rw [h]
      simp
    · rw [hEq]
      have hlen := fallbackLoop_calls_length env
        (((missingForSource db sid).take
          (min (fallbackLimit env) (missingForSource db sid).length)).map (fun d =>
            { sid := sid, did := d.id, sLoc := srcLoc src, dLoc := destLoc d })) db' [] []
      simp only [List.length_nil, List.length_map, List.length_take] at hlen ⊢
      omega
  · intro hpt hbw hk hnc
    unfold p11FromSource
    rw [hs]
    simp only [he, hpt, hbw, Bool.false_eq_true, if_false, if_true]
    by_cases hme : (missingForSource db sid).isEmpty = true
    · simp only [hme, if_true]
      exact ⟨rfl, Nat.zero_le _⟩
    · simp only [hme, Bool.false_eq_true, if_false]
      split
      · rename_i e heq
        unfold gmBatchCalculateDistances at heq
        simp [hk] at heq
      · rename_i bout heq
        have hbeq := gmBatch_ok_inv env _ _ bout heq
        subst hbeq
        have hbnd : (gmBatchCore env [srcLoc src]
            (((missingForSource db sid).take
              (min (batchSizeLimit env) (missingForSource db sid).length)).map
              destLoc)).callLog.length ≤
            ((missingForSource db sid).length + 24) / 25 := by
          rw [gmBatchCore_callLog_length, chunksOf_singleton (by omega)]
          simp only [List.length_cons, List.length_nil, zero_add, one_mul]
          rw [chunksOf_length (by omega)]
          apply Nat.div_le_div_right
          simp only [List.length_map, List.length_take]
          omega
        split
        · exact ⟨rfl, hbnd⟩
        · rename_i row0 hh
          split
          · rename_i hthrew
            exfalso
            have hfresh : ∀ it ∈ ((((missingForSource db sid).take
                (min (batchSizeLimit env) (missingForSource db sid).length)).map (fun d =>
                  { sid := sid, did := d.id, sLoc := srcLoc src,
                    dLoc := destLoc d : PairItem })).zip row0),
                findPair db.distances it.1.sid it.1.did = none := by
              intro it hit
              have h1m := (List.of_mem_zip hit).1
              rcases List.mem_map.mp h1m with ⟨d, hd, hpd⟩
              rw [← hpd]
              exact missingForSource_not_cached db sid d (List.mem_of_mem_take hd)
            have hnodup : (((((missingForSource db sid).take
                (min (batchSizeLimit env) (missingForSource db sid).length)).map (fun d =>
                  { sid := sid, did := d.id, sLoc := srcLoc src,
                    dLoc := destLoc d : PairItem })).zip row0).map
                  (fun it => (it.1.sid, it.1.did))).Nodup := by
              have hsub : ((((((missingForSource db sid).take
                  (min (batchSizeLimit env) (missingForSource db sid).length)).map (fun d =>
                    { sid := sid, did := d.id, sLoc := srcLoc src,
                      dLoc := destLoc d : PairItem })).zip row0).map Prod.fst).map
                    (fun p => (p.sid, p.did))).Sublist
                  ((((missingForSource db sid).take
                  (min (batchSizeLimit env) (missingForSource db sid).length)).map (fun d =>
                    { sid := sid, did := d.id, sLoc := srcLoc src,
                      dLoc := destLoc d : PairItem })).map (fun p => (p.sid, p.did))) :=
                List.Sublist.map _ (zip_map_fst_sublist _ _)
              have hbase : ((((missingForSource db sid).take
                  (min (batchSizeLimit env) (missingForSource db sid).length)).map (fun d =>
                    { sid := sid, did := d.id, sLoc := srcLoc src,
                      dLoc := destLoc d : PairItem })).map (fun p => (p.sid, p.did))).Nodup := by
                rw [List.map_map]
                have hids : (((missingForSource db sid).take
                    (min (batchSizeLimit env) (missingForSource db sid).length)).map
                    (fun d => d.id)).Nodup := by
                  rw [List.map_take]
                  exact List.Nodup.sublist (List.take_sublist _ _)
                    (missingForSource_ids_nodup db sid hD)
                have := pair_ids_nodup ((missingForSource db sid).take
                  (min (batchSizeLimit env) (missingForSource db sid).length)) sid hids
                simpa [List.map_map] using this
              have := List.Nodup.sublist hsub hbase
              simpa [List.map_map] using this
            rw [persistBatchLoop_no_throw env _ db [] hnc hfresh hnodup] at hthrew
            exact absurd hthrew (by simp)
          · exact ⟨rfl, hbnd⟩

/-- Witness for the amended C2 on the fixture database. -/
theorem c2_witness :
    (p11FromSource fxEnvOk fxDb 1).log.bulkExistQueries = [([1], [1, 2])] ∧
    (p11FromSource fxEnvOk fxDb 1).log.singleCalls = [] ∧
    (p11FromSource fxEnvOk fxDb 1).log.chunkCalls.length ≤
      ((missingForSource fxDb 1).length + 24) / 25 := by
  have h := c2_bulk_check_and_provider_bounds fxEnvOk fxDb 1 fxS1 (by rfl) (by rfl) (by decide)
  have hclean := h.2.2.2.2.2 (by rfl) (by rfl) (by rfl) (fun _ _ => rfl)
  exact ⟨h.1.trans (by rfl), hclean.1, hclean.2⟩

/-! ## C3 — early exit carries no truncation indicator -/

/-- C3 counterexample: on a database with one cached and one missing pair,
the pre-batch wall-clock check fires and the run exits early with the rows
assembled so far — but as a plain 200 array without a `timeout` flag and
without any headers (the early return happens before the debugging headers
are attached), so the caller cannot distinguish this partial result from a
complete one. The missing pair is provably untouched: no provider call was
made and the store still holds only the one cached row. -/
theorem c3_counterexample :
    (p11FromSource fxEnvPreTimeout fxDb 1).response.status = 200 ∧
    (p11FromSource fxEnvPreTimeout fxDb 1).response.rows = [fxRow11] ∧
    (p11FromSource fxEnvPreTimeout fxDb 1).response.timeoutFlag = false ∧
    (p11FromSource fxEnvPreTimeout fxDb 1).response.headers = [] ∧
    (p11FromSource fxEnvPreTimeout fxDb 1).db.distances = [fxRow11] ∧
    (p11FromSource fxEnvPreTimeout fxDb 1).log.singleCalls = [] ∧
    (p11FromSource fxEnvPreTimeout fxDb 1).log.chunkCalls = [] ∧
    (missingForSource fxDb 1).length = 1 := by
  exact ⟨rfl, rfl, rfl, rfl, rfl, rfl, rfl, rfl⟩

/-- C3 amended: an early exit still returns every row assembled so far, but
the machine-readable `timeout: true` indicator is set only when zero rows
were assembled (the 408 error response); an early exit with partial rows is a
plain 200 with no flag and no headers, and no 200 response of the handler
ever carries a timeout flag or any header besides the three debugging
headers. -/
theorem c3_early_exit_indicator_only_when_empty (env : Env) (db : Db) (sid : Nat)
    (src : Source) (hs : findSource db sid = some src) (he : env.earlyTimeout = false) :
    (env.preBatchTimeout = true → (missingForSource db sid).isEmpty = false →
      existingForSource db sid ≠ [] →
      (p11FromSource env db sid).response.status = 200 ∧
      (p11FromSource env db sid).response.rows = existingForSource db sid ∧
      (p11FromSource env db sid).response.timeoutFlag = false ∧
      (p11FromSource env db sid).response.headers = []) ∧
    (env.preBatchTimeout = true → (missingForSource db sid).isEmpty = false →
      existingForSource db sid = [] →
      (p11FromSource env db sid).response.status = 408 ∧
      (p11FromSource env db sid).response.rows = [] ∧
      (p11FromSource env db sid).response.timeoutFlag = true) ∧
    ((p11FromSource env db sid).response.status = 200 →
      (p11FromSource env db sid).response.timeoutFlag = false ∧
      ((p11FromSource env db sid).response.headers.map Prod.fst = [] ∨
       (p11FromSource env db sid).response.headers.map Prod.fst =
         ["X-Calculation-Type", "X-Total-Results", "X-Environment"])) := by
  refine ⟨?_, ?_, ?_⟩
  · intro hpt hm hne
    unfold p11FromSource
    rw [hs]
    simp only [he, hpt, hm, Bool.false_eq_true, if_false, if_true]
    have hnee : (existingForSource db sid).isEmpty = false := by
      cases hx : existingForSource db sid with
      | nil => exact absurd hx hne
      | cons a l => rfl
    simp only [hnee, Bool.false_eq_true, if_false]
    exact ⟨rfl, rfl, rfl, rfl⟩
  · intro hpt hm hnil
    unfold p11FromSource
    rw [hs]
    simp only [he, hpt, hm, Bool.false_eq_true, if_false, if_true]
    have hnee : (existingForSource db sid).isEmpty = true := by
      rw [hnil]
      rfl
    simp only [hnee, if_true]
    exact ⟨rfl, rfl, rfl⟩
  · unfold p11FromSource
    rw [hs]
    simp only [he, Bool.false_eq_true, if_false]
    repeat' split
    all_goals intro hst
    all_goals first
      | (exfalso; simp [jsonTimeout, jsonRows, jsonError, finishResponse] at hst; done)
      | exact ⟨rfl, Or.inl rfl⟩
      | exact ⟨rfl, Or.inr rfl⟩

/-- Witness for the amended C3 at the concrete fixture. -/
theorem c3_witness :
    ((p11FromSource fxEnvPreTimeout fxDb 1).response.status = 200 ∧
     (p11FromSource fxEnvPreTimeout fxDb 1).response.rows = existingForSource fxDb 1 ∧
     (p11FromSource fxEnvPreTimeout fxDb 1).response.timeoutFlag = false ∧
     (p11FromSource fxEnvPreTimeout fxDb 1).response.headers = []) ∧
    ((p11FromSource fxEnvOk fxDb 1).response.status = 200 →
      (p11FromSource fxEnvOk fxDb 1).response.timeoutFlag = false ∧
      ((p11FromSource fxEnvOk fxDb 1).response.headers.map Prod.fst = [] ∨
       (p11FromSource fxEnvOk fxDb 1).response.headers.map Prod.fst =
         ["X-Calculation-Type", "X-Total-Results", "X-Environment"])) := by
  constructor
  · exact (c3_early_exit_indicator_only_when_empty fxEnvPreTimeout fxDb 1 fxS1
      (by rfl) (by rfl)).1 (by rfl) (by rfl) (by decide)
  · exact (c3_early_exit_indicator_only_when_empty fxEnvOk fxDb 1 fxS1
      (by rfl) (by rfl)).2.2

/-! ## C4 — create conflicts: caught, but no re-read -/

theorem fallbackLoop_rows_no_conflict (env : Env) :
    ∀ (items : List PairItem) (db : Db) (acc : List DistanceRow)
      (calls : List ((Nat × Nat) × (Loc × Loc))),
      ∀ r ∈ (fallbackLoop env items db acc calls).2.1,
        r ∈ acc ∨ env.createConflict r.sourceId r.destinationId = false := by
  intro items
  induction items with
  | nil => intro db acc calls r hr; exact Or.inl hr
  | cons p rest ih =>
    intro db acc calls r hr
    unfold fallbackLoop at hr
    cases hcd : gmCalculateDistance env p.sLoc p.dLoc with
    | error e =>
      rw [hcd] at hr
      exact ih _ _ _ r hr
    | ok res =>
      rw [hcd] at hr
      cases res with
      | none => exact ih _ _ _ r hr
      | some v =>
        dsimp only at hr
        by_cases hct : createThrows env db p.sid p.did = true
        · rw [if_pos hct] at hr
          exact ih _ _ _ r hr
        · rw [if_neg hct] at hr
          rcases ih _ _ _ r hr with h | h
          · rcases List.mem_append.mp h with h | h
            · exact Or.inl h
            · right
              have hr1 : r = mkRowFromSingle db.nextDistanceId p.sid p.did v := by
                simpa using h
              subst hr1
              unfold createThrows at hct
              simp only [Bool.or_eq_true, not_or, Bool.not_eq_true] at hct
              exact hct.2
          · exact Or.inr h

theorem persistBatchLoop_rows_no_conflict (env : Env) :
    ∀ (items : List (PairItem × Option DistanceResult)) (db : Db) (acc : List DistanceRow),
      ∀ r ∈ (persistBatchLoop env items db acc).2.1,
        r ∈ acc ∨ env.createConflict r.sourceId r.destinationId = false := by
  intro items
  induction items with
  | nil => intro db acc r hr; exact Or.inl hr
  | cons it rest ih =>
    intro db acc r hr
    rcases it with ⟨p, res⟩
    cases res with
    | none => exact ih _ _ r hr
    | some v =>
      unfold persistBatchLoop at hr
      by_cases hct : createThrows env db p.sid p.did = true
      · rw [if_pos hct] at hr
        exact Or.inl hr
      · rw [if_neg hct] at hr
        rcases ih _ _ r hr with h | h
        · rcases List.mem_append.mp h with h | h
          · exact Or.inl h
          · right
            have hr1 : r = mkRowFromBatch db.nextDistanceId p.sid p.did p.sLoc p.dLoc v := by
              simpa using h
            subst hr1
            unfold createThrows at hct
            simp only [Bool.or_eq_true, not_or, Bool.not_eq_true] at hct
            exact hct.2
        · exact Or.inr h

set_option maxRecDepth 40000 in
/-- C4 counterexample: with both pairs of the scope missing and a concurrent
writer holding pair (1, 1), the duplicate-key conflict thrown by `create`
inside the batch-persisting loop aborts that loop, is caught by the
batch-level `catch`, and triggers the per-pair fallback: the provider is
re-invoked individually for BOTH pairs (degrading the remainder of the run),
and the conflicted pair (1, 1) is never re-read — the response contains no
row for it at all, only the row for (1, 2). -/
theorem c4_counterexample :
    (p11FromSource fxEnvConflict fxDbEmpty 1).response.status = 200 ∧
    ((p11FromSource fxEnvConflict fxDbEmpty 1).response.rows.map
      (fun r => (r.sourceId, r.destinationId))) = [(1, 2)] ∧
    ((p11FromSource fxEnvConflict fxDbEmpty 1).log.singleCalls.map Prod.fst) =
      [(1, 1), (1, 2)] ∧
    ((p11FromSource fxEnvConflict fxDbEmpty 1).response.rows.all
      (fun r => r.destinationId != 1)) = true := by
  refine ⟨?_, ?_, ?_, ?_⟩ <;> with_unfolding_all rfl

/-- C4 amended: a duplicate-key `ConflictError` during the persisting step is
never surfaced to the caller — the run still answers 200 — but the existing
row is NOT re-read: a pair for which the concurrent-writer conflict fires can
appear in the results only if it was already cached before the run. The
conflict degrades the remainder of the run to the per-pair fallback path,
bounded by `FALLBACK_LIMIT`. -/
theorem c4_conflict_not_surfaced_no_reread (env : Env) (db : Db) (sid : Nat) (src : Source)
    (hs : findSource db sid = some src) (he : env.earlyTimeout = false)
    (hpt : env.preBatchTimeout = false) :
    (p11FromSource env db sid).response.status = 200 ∧
    (∀ r ∈ (p11FromSource env db sid).response.rows,
      env.createConflict r.sourceId r.destinationId = true → r ∈ db.distances) ∧
    (p11FromSource env db sid).log.singleCalls.length ≤
      min (fallbackLimit env) (missingForSource db sid).length := by
  have hmem_ex : ∀ r ∈ existingForSource db sid, r ∈ db.distances := by
    intro r hr
    exact (List.mem_filter.mp hr).1
  refine ⟨?_, ?_, ?_⟩
  · unfold p11FromSource
    rw [hs]
    simp only [he, hpt, Bool.false_eq_true, if_false]
    repeat' split
    all_goals rfl
  · unfold p11FromSource
    rw [hs]
    simp only [he, hpt, Bool.false_eq_true, if_false]
    repeat' split
    all_goals intro r hr hcf
    all_goals simp only [finishResponse, List.mem_append] at hr
    · exact hmem_ex r hr
    · rcases hr with h | h
      · exact hmem_ex r h
      · rcases fallbackLoop_rows_no_conflict env _ _ _ _ r h with h2 | h2
        · exact absurd h2 (List.not_mem_nil r)
        · rw [hcf] at h2
          exact absurd h2 (by simp)
    · exact hmem_ex r hr
    · rcases hr with (h | h) | h
      · exact hmem_ex r h
      · rcases persistBatchLoop_rows_no_conflict env _ _ _ r h with h2 | h2
        · exact absurd h2 (List.not_mem_nil r)
        · rw [hcf] at h2
          exact absurd h2 (by simp)
      · rcases fallbackLoop_rows_no_conflict env _ _ _ _ r h with h2 | h2
        · exact absurd h2 (List.not_mem_nil r)
        · rw [hcf] at h2
          exact absurd h2 (by simp)
    · rcases hr with h | h
      · exact hmem_ex r h
      · rcases persistBatchLoop_rows_no_conflict env _ _ _ r h with h2 | h2
        · exact absurd h2 (List.not_mem_nil r)
        · rw [hcf] at h2
          exact absurd h2 (by simp)
    · rcases hr with h | h
      · exact hmem_ex r h
      · rcases fallbackLoop_rows_no_conflict env _ _ _ _ r h with h2 | h2
        · exact absurd h2 (List.not_mem_nil r)
        · rw [hcf] at h2
          exact absurd h2 (by simp)
  · obtain ⟨_, _, h3, _, _⟩ := p11FromSource_log_shape env db sid src hs he
    rcases h3 with h | ⟨db', hEq⟩
    · rw [h]
      simp
    · rw [hEq]
      have hlen := fallbackLoop_calls_length env
        (((missingForSource db sid).take
          (min (fallbackLimit env) (missingForSource db sid).length)).map (fun d =>
            { sid := sid, did := d.id, sLoc := srcLoc src, dLoc := destLoc d })) db' [] []
      simp only [List.length_nil, List.length_map, List.length_take] at hlen ⊢
      omega

/-- Witness for the amended C4 at the conflicting fixture. -/
theorem c4_witness :
    (p11FromSource fxEnvConflict fxDbEmpty 1).response.status = 200 ∧
    (∀ r ∈ (p11FromSource fxEnvConflict fxDbEmpty 1).response.rows,
      fxEnvConflict.createConflict r.sourceId r.destinationId = true →
        r ∈ fxDbEmpty.distances) := by
  have h := c4_conflict_not_surfaced_no_reread fxEnvConflict fxDbEmpty 1 fxS1
    (by rfl) (by rfl) (by rfl)
  exact ⟨h.1, h.2.1⟩

/-! ## C10 — geocoded coordinates persist across a failed distance call -/

/-- C10: in the single-pair path, when the destination lacks (truthy)
coordinates, geocoding succeeds with `loc`, and the subsequent provider
distance call fails (`null`), the request answers 500 "Could not calculate
distance" and creates no Distance row, yet the destination's freshly
persisted coordinates remain (`updateDestCoords` is not rolled back), and
the provider call itself was already made with the geocoded coordinates. -/
theorem c10_coords_persisted_not_rolled_back (env : Env) (db : Db) (sid did : Nat)
    (src : Source) (dest0 : Destination) (loc : Loc)
    (hnp : findPair db.distances sid did = none)
    (hs : findSource db sid = some src)
    (hd : findDest db did = some dest0)
    (hfalsy : (!(truthyNum dest0.latitude) || !(truthyNum dest0.longitude)) = true)
    (hgeo : gmGeocodeWithFallbacks env dest0.name dest0.pincode dest0.address = .ok (some loc))
    (hcd : gmCalculateDistance env (srcLoc src)
        (destLoc { dest0 with latitude := some loc.latitude, longitude := some loc.longitude }) =
        .ok none) :
    (p11Single env db sid did).response.status = 500 ∧
    (p11Single env db sid did).response.errorMsg = some "Could not calculate distance" ∧
    (p11Single env db sid did).db = updateDestCoords db did loc ∧
    (p11Single env db sid did).db.distances = db.distances ∧
    (p11Single env db sid did).log.singleCalls =
      [((sid, did), (srcLoc src,
        destLoc { dest0 with latitude := some loc.latitude, longitude := some loc.longitude }))] := by
  have hp : p11Single env db sid did =
      { response := jsonError 500 "Could not calculate distance",
        db := updateDestCoords db did loc,
        log := { RunLog.empty with
                 singleExistQueries := [(sid, did)]
                 geocodeRuns := 1
                 singleCalls := [((sid, did), (srcLoc src,
                   destLoc { dest0 with latitude := some loc.latitude
                                        longitude := some loc.longitude }))] } } := by
    unfold p11Single
    rw [hnp]
    dsimp only
    rw [hs, hd]
    dsimp only
    rw [if_pos hfalsy, hgeo]
    dsimp only
    rw [if_pos hfalsy, hcd]
  rw [hp]
  refine ⟨rfl, rfl, rfl, ?_, rfl⟩
  simp [updateDestCoords]

/-- Witness for C10 at the geocoding fixture: destination 3 has no
coordinates, geocoding yields (10, 77), the distance call fails at the
transport level. -/
theorem c10_witness :
    (p11Single fxEnvGeo fxDbGeo 1 3).response.status = 500 ∧
    (p11Single fxEnvGeo fxDbGeo 1 3).db =
      updateDestCoords fxDbGeo 3 { latitude := 10, longitude := 77 } ∧
    (p11Single fxEnvGeo fxDbGeo 1 3).db.distances = fxDbGeo.distances := by
  have h := c10_coords_persisted_not_rolled_back fxEnvGeo fxDbGeo 1 3 fxS1 fxD3
    { latitude := 10, longitude := 77 } (by rfl) (by rfl) (by rfl) (by rfl) (by rfl) (by rfl)
  exact ⟨h.1, h.2.2.1, h.2.2.2.1⟩

/-! ## C1 — helper lemmas: last-wins map lookups -/

theorem foldl_lastStep (p : DistanceRow → Bool) :
    ∀ (l : List DistanceRow) (acc : Option DistanceRow),
      l.foldl (fun a r => if p r then some r else a) acc =
        (l.reverse.find? p).or acc := by
  intro l
  induction l with
  | nil => intro acc; simp
  | cons a l ih =>
    intro acc
    simp only [List.foldl_cons, List.reverse_cons, List.find?_append, ih]
    cases hpa : p a <;>
      simp [List.find?, hpa, Option.or_assoc]

theorem lastLookup_eq_reverse_find (rows : List DistanceRow) (s d : Nat) :
    lastLookup rows s d =
      rows.reverse.find? (fun r => r.sourceId == s && r.destinationId == d) := by
  unfold lastLookup
  rw [foldl_lastStep]
  cases rows.reverse.find? (fun r => r.sourceId == s && r.destinationId == d) <;> rfl

theorem lastLookup_append (a b : List DistanceRow) (s d : Nat) :
    lastLookup (a ++ b) s d = (lastLookup b s d).or (lastLookup a s d) := by
  simp [lastLookup_eq_reverse_find, List.find?_append]

theorem lastLookup_eq_none_iff (rows : List DistanceRow) (s d : Nat) :
    lastLookup rows s d = none ↔
      ∀ r ∈ rows, (r.sourceId == s && r.destinationId == d) = false := by
  rw [lastLookup_eq_reverse_find, List.find?_eq_none]
  constructor
  · intro h r hr
    have := h r (List.mem_reverse.mpr hr)
    simpa using this
  · intro h r hr
    simp [h r (List.mem_reverse.mp hr)]

theorem lastLookup_singleton (r : DistanceRow) (s d : Nat)
    (h : (r.sourceId == s && r.destinationId == d) = true) :
    lastLookup [r] s d = some r := by
  have h2 : r.sourceId = s ∧ r.destinationId = d := by simpa using h
  simp [lastLookup, h2.1, h2.2]

theorem findPair_eq_none_iff (rows : List DistanceRow) (s d : Nat) :
    findPair rows s d = none ↔
      ∀ r ∈ rows, (r.sourceId == s && r.destinationId == d) = false := by
  rw [findPair, List.find?_eq_none]
  constructor
  · intro h r hr
    simpa using h r hr
  · intro h r hr
    simp [h r hr]

/-! ## C1 — helper lemmas: what the persisting loops append -/

theorem persistBatchLoop_structure (env : Env) :
    ∀ (items : List (PairItem × Option DistanceResult)) (db : Db) (acc : List DistanceRow),
      ∃ nr,
        (persistBatchLoop env items db acc).2.1 = acc ++ nr ∧
        (persistBatchLoop env items db acc).1.distances = db.distances ++ nr ∧
        (persistBatchLoop env items db acc).1.sources = db.sources ∧
        (persistBatchLoop env items db acc).1.destinations = db.destinations ∧
        ∀ r ∈ nr, ∃ it ∈ items, r.sourceId = it.1.sid ∧ r.destinationId = it.1.did := by
  intro items
  induction items with
  | nil => intro db acc; exact ⟨[], by simp [persistBatchLoop]⟩
  | cons it rest ih =>
    intro db acc
    rcases it with ⟨p, res⟩
    cases res with
    | none =>
      obtain ⟨nr, h1, h2, h3, h4, h5⟩ := ih db acc
      refine ⟨nr, ?_, ?_, ?_, ?_, ?_⟩
      · simpa only [persistBatchLoop] using h1
      · simpa only [persistBatchLoop] using h2
      · simpa only [persistBatchLoop] using h3
      · simpa only [persistBatchLoop] using h4
      · intro r hr
        obtain ⟨it2, hit2, hprop⟩ := h5 r hr
        exact ⟨it2, List.mem_cons_of_mem _ hit2, hprop⟩
    | some v =>
      by_cases hct : createThrows env db p.sid p.did = true
      · refine ⟨[], ?_, ?_, ?_, ?_, ?_⟩ <;> simp [persistBatchLoop, hct]
      · have hu : persistBatchLoop env ((p, some v) :: rest) db acc =
            persistBatchLoop env rest
              (pushRow db (mkRowFromBatch db.nextDistanceId p.sid p.did p.sLoc p.dLoc v))
              (acc ++ [mkRowFromBatch db.nextDistanceId p.sid p.did p.sLoc p.dLoc v]) := by
          simp only [persistBatchLoop]
          rw [if_neg hct]
        obtain ⟨nr, h1, h2, h3, h4, h5⟩ :=
          ih (pushRow db (mkRowFromBatch db.nextDistanceId p.sid p.did p.sLoc p.dLoc v))
            (acc ++ [mkRowFromBatch db.nextDistanceId p.sid p.did p.sLoc p.dLoc v])
        refine ⟨mkRowFromBatch db.nextDistanceId p.sid p.did p.sLoc p.dLoc v :: nr,
          ?_, ?_, ?_, ?_, ?_⟩
        · rw [hu, h1]; simp
        · rw [hu, h2]; simp [pushRow]
        · rw [hu, h3]; simp [pushRow]
        · rw [hu, h4]; simp [pushRow]
        · intro r hr
          rcases List.mem_cons.mp hr with hr | hr
          · subst hr; exact ⟨(p, some v), List.mem_cons_self _ _, rfl, rfl⟩
          · obtain ⟨it2, hit2, hprop⟩ := h5 r hr
            exact ⟨it2, List.mem_cons_of_mem _ hit2, hprop⟩

theorem fallbackLoop_structure (env : Env) :
    ∀ (items : List PairItem) (db : Db) (acc : List DistanceRow)
      (calls : List ((Nat × Nat) × (Loc × Loc))),
      ∃ nr,
        (fallbackLoop env items db acc calls).2.1 = acc ++ nr ∧
        (fallbackLoop env items db acc calls).1.distances = db.distances ++ nr ∧
        (fallbackLoop env items db acc calls).1.sources = db.sources ∧
        (fallbackLoop env items db acc calls).1.destinations = db.destinations ∧
        ∀ r ∈ nr, ∃ it ∈ items, r.sourceId = it.sid ∧ r.destinationId = it.did := by
  intro items
  induction items with
  | nil => intro db acc calls; exact ⟨[], by simp [fallbackLoop]⟩
  | cons p rest ih =>
    intro db acc calls
    cases hcd : gmCalculateDistance env p.sLoc p.dLoc with
    | error e =>
      obtain ⟨nr, h1, h2, h3, h4, h5⟩ := ih db acc calls
      refine ⟨nr, ?_, ?_, ?_, ?_, ?_⟩
      · simpa only [fallbackLoop, hcd] using h1
      · simpa only [fallbackLoop, hcd] using h2
      · simpa only [fallbackLoop, hcd] using h3
      · simpa only [fallbackLoop, hcd] using h4
      · intro r hr
        obtain ⟨it2, hit2, hprop⟩ := h5 r hr
        exact ⟨it2, List.mem_cons_of_mem _ hit2, hprop⟩
    | ok res =>
      cases res with
      | none =>
        obtain ⟨nr, h1, h2, h3, h4, h5⟩ :=
          ih db acc (calls ++ [((p.sid, p.did), (p.sLoc, p.dLoc))])
        refine ⟨nr, ?_, ?_, ?_, ?_, ?_⟩
        · simpa only [fallbackLoop, hcd] using h1
        · simpa only [fallbackLoop, hcd] using h2
        · simpa only [fallbackLoop, hcd] using h3
        · simpa only [fallbackLoop, hcd] using h4
        · intro r hr
          obtain ⟨it2, hit2, hprop⟩ := h5 r hr
          exact ⟨it2, List.mem_cons_of_mem _ hit2, hprop⟩
      | some v =>
        by_cases hct : createThrows env db p.sid p.did = true
        · have hu : fallbackLoop env (p :: rest) db acc calls =
              fallbackLoop env rest db acc (calls ++ [((p.sid, p.did), (p.sLoc, p.dLoc))]) := by
            simp only [fallbackLoop, hcd]
            rw [if_pos hct]
          obtain ⟨nr, h1, h2, h3, h4, h5⟩ :=
            ih db acc (calls ++ [((p.sid, p.did), (p.sLoc, p.dLoc))])
          refine ⟨nr, ?_, ?_, ?_, ?_, ?_⟩
          · rw [hu]; exact h1
          · rw [hu]; exact h2
          · rw [hu]; exact h3
          · rw [hu]; exact h4
          · intro r hr
            obtain ⟨it2, hit2, hprop⟩ := h5 r hr
            exact ⟨it2, List.mem_cons_of_mem _ hit2, hprop⟩
        · have hu : fallbackLoop env (p :: rest) db acc calls =
              fallbackLoop env rest
                (pushRow db (mkRowFromSingle db.nextDistanceId p.sid p.did v))
                (acc ++ [mkRowFromSingle db.nextDistanceId p.sid p.did v])
                (calls ++ [((p.sid, p.did), (p.sLoc, p.dLoc))]) := by
            simp only [fallbackLoop, hcd]
            rw [if_neg hct]
          obtain ⟨nr, h1, h2, h3, h4, h5⟩ :=
            ih (pushRow db (mkRowFromSingle db.nextDistanceId p.sid p.did v))
              (acc ++ [mkRowFromSingle db.nextDistanceId p.sid p.did v])
              (calls ++ [((p.sid, p.did), (p.sLoc, p.dLoc))])
          refine ⟨mkRowFromSingle db.nextDistanceId p.sid p.did v :: nr, ?_, ?_, ?_, ?_, ?_⟩
          · rw [hu, h1]; simp
          · rw [hu, h2]; simp [pushRow]
          · rw [hu, h3]; simp [pushRow]
          · rw [hu, h4]; simp [pushRow]
          · intro r hr
            rcases List.mem_cons.mp hr with hr | hr
            · subst hr; exact ⟨p, List.mem_cons_self _ _, rfl, rfl⟩
            · obtain ⟨it2, hit2, hprop⟩ := h5 r hr
              exact ⟨it2, List.mem_cons_of_mem _ hit2, hprop⟩

/-! ## C1 — helper lemmas: congruence under unchanged entities -/

theorem findSource_congr {db1 db2 : Db} (h : db1.sources = db2.sources) (i : Nat) :
    findSource db1 i = findSource db2 i := by
  unfold findSource; rw [h]

theorem findDest_congr {db1 db2 : Db} (h : db1.destinations = db2.destinations) (i : Nat) :
    findDest db1 i = findDest db2 i := by
  unfold findDest; rw [h]

theorem sortedDests_congr {db1 db2 : Db} (h : db1.destinations = db2.destinations) :
    sortedDests db1 = sortedDests db2 := by
  unfold sortedDests; rw [h]

theorem sortedSources_congr {db1 db2 : Db} (h : db1.sources = db2.sources) :
    sortedSources db1 = sortedSources db2 := by
  unfold sortedSources; rw [h]

theorem rowLeB_congr {db1 db2 : Db} (hs : db1.sources = db2.sources)
    (hd : db1.destinations = db2.destinations) : rowLeB db1 = rowLeB db2 := by
  funext a b
  simp only [rowLeB, srcNameOf, destNameOf, findSource_congr hs, findDest_congr hd]

theorem existingForSource_append {db db' : Db} (sid : Nat) {nr : List DistanceRow}
    (hdest : db'.destinations = db.destinations)
    (hdist : db'.distances = db.distances ++ nr)
    (hnr : ∀ r ∈ nr, r.sourceId = sid ∧
      r.destinationId ∈ (missingForSource db sid).map (fun d => d.id)) :
    existingForSource db' sid = existingForSource db sid ++ nr := by
  unfold existingForSource
  rw [hdist, sortedDests_congr hdest, List.filter_append]
  congr 1
  apply List.filter_eq_self.mpr
  intro r hr
  obtain ⟨h1, h2⟩ := hnr r hr
  have hmem : r.destinationId ∈ (sortedDests db).map (fun d => d.id) := by
    obtain ⟨d, hd2, hde⟩ := List.mem_map.mp h2
    exact List.mem_map.mpr ⟨d, List.mem_of_mem_filter hd2, hde⟩
  simp [h1, hmem]

theorem existingForDest_append {db db' : Db} (did : Nat) {nr : List DistanceRow}
    (hsrc : db'.sources = db.sources)
    (hdist : db'.distances = db.distances ++ nr)
    (hnr : ∀ r ∈ nr, r.destinationId = did ∧
      r.sourceId ∈ (missingForDest db did).map (fun s => s.id)) :
    existingForDest db' did = existingForDest db did ++ nr := by
  unfold existingForDest
  rw [hdist, sortedSources_congr hsrc, List.filter_append]
  congr 1
  apply List.filter_eq_self.mpr
  intro r hr
  obtain ⟨h1, h2⟩ := hnr r hr
  have hmem : r.sourceId ∈ (sortedSources db).map (fun s => s.id) := by
    obtain ⟨s, hs2, hse⟩ := List.mem_map.mp h2
    exact List.mem_map.mpr ⟨s, List.mem_of_mem_filter hs2, hse⟩
  simp [h1, hmem]

/-! ## C1 — helper lemmas: run shape of the bulk scope handlers -/

theorem fbItems_mem_src {db : Db} {sid : Nat} {src : Source} {k : Nat} {it : PairItem}
    (h : it ∈ ((missingForSource db sid).take k).map (fun d =>
      ({ sid := sid, did := d.id, sLoc := srcLoc src, dLoc := destLoc d } : PairItem))) :
    it.sid = sid ∧ it.did ∈ (missingForSource db sid).map (fun d => d.id) := by
  obtain ⟨d, hd, he⟩ := List.mem_map.mp h
  subst he
  exact ⟨rfl, List.mem_map.mpr ⟨d, List.mem_of_mem_take hd, rfl⟩⟩

theorem p11FromSource_structure (env : Env) (db : Db) (sid : Nat) (src : Source)
    (hs : findSource db sid = some src) (he : env.earlyTimeout = false)
    (hpt : env.preBatchTimeout = false) :
    ∃ nr,
      (p11FromSource env db sid).response.status = 200 ∧
      (p11FromSource env db sid).response.rows = existingForSource db sid ++ nr ∧
      (p11FromSource env db sid).db.distances = db.distances ++ nr ∧
      (p11FromSource env db sid).db.sources = db.sources ∧
      (p11FromSource env db sid).db.destinations = db.destinations ∧
      ∀ r ∈ nr, r.sourceId = sid ∧
        r.destinationId ∈ (missingForSource db sid).map (fun d => d.id) := by
  unfold p11FromSource
  rw [hs]
  simp only [he, hpt, Bool.false_eq_true, if_false]
  repeat' split
  · exact ⟨[], rfl, by simp [finishResponse], by simp, rfl, rfl, by simp⟩
  · rename_i xv av heqb
    obtain ⟨nrF, f1, f2, f3, f4, f5⟩ := fallbackLoop_structure env
      (((missingForSource db sid).take
        (min (fallbackLimit env) (missingForSource db sid).length)).map
        (fun d => ({ sid := sid, did := d.id, sLoc := srcLoc src, dLoc := destLoc d } : PairItem)))
      db [] []
    simp only [List.nil_append] at f1
    refine ⟨nrF, rfl, ?_, ?_, f3, f4, ?_⟩
    · simp only [finishResponse]
      rw [f1]
    · exact f2
    · intro r hr
      obtain ⟨it, hit, hq1, hq2⟩ := f5 r hr
      obtain ⟨hsid, hdid⟩ := fbItems_mem_src hit
      refine ⟨hq1.trans hsid, ?_⟩
      rw [hq2]; exact hdid
  · exact ⟨[], rfl, by simp [finishResponse], by simp, rfl, rfl, by simp⟩
  · rename_i xv bout heqb xo row0 heqr hpb
    obtain ⟨nrP, p1, p2, p3, p4, p5⟩ := persistBatchLoop_structure env
      ((((missingForSource db sid).take
        (min (batchSizeLimit env) (missingForSource db sid).length)).map
        (fun d => ({ sid := sid, did := d.id, sLoc := srcLoc src, dLoc := destLoc d } :
          PairItem))).zip row0)
      db []
    simp only [List.nil_append] at p1
    obtain ⟨nrF, f1, f2, f3, f4, f5⟩ := fallbackLoop_structure env
      (((missingForSource db sid).take
        (min (fallbackLimit env) (missingForSource db sid).length)).map
        (fun d => ({ sid := sid, did := d.id, sLoc := srcLoc src, dLoc := destLoc d } : PairItem)))
      (persistBatchLoop env
        ((((missingForSource db sid).take
          (min (batchSizeLimit env) (missingForSource db sid).length)).map
          (fun d => ({ sid := sid, did := d.id, sLoc := srcLoc src, dLoc := destLoc d } :
            PairItem))).zip row0)
        db []).1 [] []
    simp only [List.nil_append] at f1
    refine ⟨nrP ++ nrF, rfl, ?_, ?_, ?_, ?_, ?_⟩
    · simp only [finishResponse]
      rw [p1, f1, List.append_assoc]
    · show (fallbackLoop env _ _ [] []).1.distances = _
      rw [f2, p2, List.append_assoc]
    · show (fallbackLoop env _ _ [] []).1.sources = _
      rw [f3]; exact p3
    · show (fallbackLoop env _ _ [] []).1.destinations = _
      rw [f4]; exact p4
    · intro r hr
      rcases List.mem_append.mp hr with hr | hr
      · obtain ⟨⟨pi, ob⟩, hit, hq1, hq2⟩ := p5 r hr
        obtain ⟨hsid, hdid⟩ := fbItems_mem_src (List.of_mem_zip hit).1
        refine ⟨hq1.trans hsid, ?_⟩
        rw [hq2]; exact hdid
      · obtain ⟨it, hit, hq1, hq2⟩ := f5 r hr
        obtain ⟨hsid, hdid⟩ := fbItems_mem_src hit
        refine ⟨hq1.trans hsid, ?_⟩
        rw [hq2]; exact hdid
  · rename_i xv bout heqb xo row0 heqr hpb
    obtain ⟨nrP, p1, p2, p3, p4, p5⟩ := persistBatchLoop_structure env
      ((((missingForSource db sid).take
        (min (batchSizeLimit env) (missingForSource db sid).length)).map
        (fun d => ({ sid := sid, did := d.id, sLoc := srcLoc src, dLoc := destLoc d } :
          PairItem))).zip row0)
      db []
    simp only [List.nil_append] at p1
    refine ⟨nrP, rfl, ?_, ?_, p3, p4, ?_⟩
    · simp only [finishResponse]
      rw [p1]
    · exact p2
    · intro r hr
      obtain ⟨⟨pi, ob⟩, hit, hq1, hq2⟩ := p5 r hr
      obtain ⟨hsid, hdid⟩ := fbItems_mem_src (List.of_mem_zip hit).1
      refine ⟨hq1.trans hsid, ?_⟩
      rw [hq2]; exact hdid
  · obtain ⟨nrF, f1, f2, f3, f4, f5⟩ := fallbackLoop_structure env
      (((missingForSource db sid).take
        (min (fallbackLimit env) (missingForSource db sid).length)).map
        (fun d => ({ sid := sid, did := d.id, sLoc := srcLoc src, dLoc := destLoc d } : PairItem)))
      db [] []
    simp only [List.nil_append] at f1
    refine ⟨nrF, rfl, ?_, ?_, f3, f4, ?_⟩
    · simp only [finishResponse]
      rw [f1]
    · exact f2
    · intro r hr
      obtain ⟨it, hit, hq1, hq2⟩ := f5 r hr
      obtain ⟨hsid, hdid⟩ := fbItems_mem_src hit
      refine ⟨hq1.trans hsid, ?_⟩
      rw [hq2]; exact hdid

theorem tdItems_mem {db : Db} {did : Nat} {dL : Loc} {k : Nat} {it : PairItem}
    (h : it ∈ ((missingForDest db did).take k).map (fun s =>
      ({ sid := s.id, did := did, sLoc := srcLoc s, dLoc := dL } : PairItem))) :
    it.did = did ∧ it.sid ∈ (missingForDest db did).map (fun s => s.id) := by
  obtain ⟨s, hs, he⟩ := List.mem_map.mp h
  subst he
  exact ⟨rfl, List.mem_map.mpr ⟨s, List.mem_of_mem_take hs, rfl⟩⟩

theorem p11ToDest_structure (env : Env) (db : Db) (did : Nat) (dest : Destination)
    (hd : findDest db did = some dest)
    (hco : (!(truthyNum dest.latitude) || !(truthyNum dest.longitude)) = false) :
    ∃ nr,
      (p11ToDest env db did).response.status = 200 ∧
      (p11ToDest env db did).response.rows = existingForDest db did ++ nr ∧
      (p11ToDest env db did).db.distances = db.distances ++ nr ∧
      (p11ToDest env db did).db.sources = db.sources ∧
      (p11ToDest env db did).db.destinations = db.destinations ∧
      ∀ r ∈ nr, r.destinationId = did ∧
        r.sourceId ∈ (missingForDest db did).map (fun s => s.id) := by
  unfold p11ToDest
  rw [hd]
  simp only [hco, Bool.false_eq_true, if_false]
  repeat' split
  · exact ⟨[], rfl, by simp [finishResponse], by simp, rfl, rfl, by simp⟩
  · rename_i xv av heqb
    obtain ⟨nrF, f1, f2, f3, f4, f5⟩ := fallbackLoop_structure env
      (((missingForDest db did).take
        (min (fallbackLimit env) (missingForDest db did).length)).map
        (fun s => ({ sid := s.id, did := did, sLoc := srcLoc s, dLoc := destLoc dest } : PairItem)))
      db [] []
    simp only [List.nil_append] at f1
    refine ⟨nrF, rfl, ?_, ?_, f3, f4, ?_⟩
    · simp only [finishResponse]
      rw [f1]
    · exact f2
    · intro r hr
      obtain ⟨it, hit, hq1, hq2⟩ := f5 r hr
      obtain ⟨hdid, hsid⟩ := tdItems_mem hit
      refine ⟨hq2.trans hdid, ?_⟩
      rw [hq1]; exact hsid
  · rename_i xv bout heqb hpb
    obtain ⟨nrP, p1, p2, p3, p4, p5⟩ := persistBatchLoop_structure env
      ((((missingForDest db did).take
        (min (batchSizeLimit env) (missingForDest db did).length)).map
        (fun s => ({ sid := s.id, did := did, sLoc := srcLoc s, dLoc := destLoc dest } :
          PairItem))).zip (bout.matrix.map (fun row => row.getD 0 none)))
      db []
    simp only [List.nil_append] at p1
    obtain ⟨nrF, f1, f2, f3, f4, f5⟩ := fallbackLoop_structure env
      (((missingForDest db did).take
        (min (fallbackLimit env) (missingForDest db did).length)).map
        (fun s => ({ sid := s.id, did := did, sLoc := srcLoc s, dLoc := destLoc dest } : PairItem)))
      (persistBatchLoop env
        ((((missingForDest db did).take
          (min (batchSizeLimit env) (missingForDest db did).length)).map
          (fun s => ({ sid := s.id, did := did, sLoc := srcLoc s, dLoc := destLoc dest } :
            PairItem))).zip (bout.matrix.map (fun row => row.getD 0 none)))
        db []).1 [] []
    simp only [List.nil_append] at f1
    refine ⟨nrP ++ nrF, rfl, ?_, ?_, ?_, ?_, ?_⟩
    · simp only [finishResponse]
      rw [p1, f1, List.append_assoc]
    · show (fallbackLoop env _ _ [] []).1.distances = _
      rw [f2, p2, List.append_assoc]
    · show (fallbackLoop env _ _ [] []).1.sources = _
      rw [f3]; exact p3
    · show (fallbackLoop env _ _ [] []).1.destinations = _
      rw [f4]; exact p4
    · intro r hr
      rcases List.mem_append.mp hr with hr | hr
      · obtain ⟨⟨pi, ob⟩, hit, hq1, hq2⟩ := p5 r hr
        obtain ⟨hdid, hsid⟩ := tdItems_mem (List.of_mem_zip hit).1
        refine ⟨hq2.trans hdid, ?_⟩
        rw [hq1]; exact hsid
      · obtain ⟨it, hit, hq1, hq2⟩ := f5 r hr
        obtain ⟨hdid, hsid⟩ := tdItems_mem hit
        refine ⟨hq2.trans hdid, ?_⟩
        rw [hq1]; exact hsid
  · rename_i xv bout heqb hpb
    obtain ⟨nrP, p1, p2, p3, p4, p5⟩ := persistBatchLoop_structure env
      ((((missingForDest db did).take
        (min (batchSizeLimit env) (missingForDest db did).length)).map
        (fun s => ({ sid := s.id, did := did, sLoc := srcLoc s, dLoc := destLoc dest } :
          PairItem))).zip (bout.matrix.map (fun row => row.getD 0 none)))
      db []
    simp only [List.nil_append] at p1
    refine ⟨nrP, rfl, ?_, ?_, p3, p4, ?_⟩
    · simp only [finishResponse]
      rw [p1]
    · exact p2
    · intro r hr
      obtain ⟨⟨pi, ob⟩, hit, hq1, hq2⟩ := p5 r hr
      obtain ⟨hdid, hsid⟩ := tdItems_mem (List.of_mem_zip hit).1
      refine ⟨hq2.trans hdid, ?_⟩
      rw [hq1]; exact hsid
  · obtain ⟨nrF, f1, f2, f3, f4, f5⟩ := fallbackLoop_structure env
      (((missingForDest db did).take
        (min (fallbackLimit env) (missingForDest db did).length)).map
        (fun s => ({ sid := s.id, did := did, sLoc := srcLoc s, dLoc := destLoc dest } : PairItem)))
      db [] []
    simp only [List.nil_append] at f1
    refine ⟨nrF, rfl, ?_, ?_, f3, f4, ?_⟩
    · simp only [finishResponse]
      rw [f1]
    · exact f2
    · intro r hr
      obtain ⟨it, hit, hq1, hq2⟩ := f5 r hr
      obtain ⟨hdid, hsid⟩ := tdItems_mem hit
      refine ⟨hq2.trans hdid, ?_⟩
      rw [hq1]; exact hsid

/-! ## C1 — helper lemmas: a completed bulk scope re-runs without provider calls -/

theorem p11FromSource_cached_run (env : Env) (db1 : Db) (sid : Nat) (src : Source)
    (he : env.earlyTimeout = false) (hpt : env.preBatchTimeout = false)
    (h1 : findSource db1 sid = some src)
    (h2 : (missingForSource db1 sid).isEmpty = true) :
    p11FromSource env db1 sid =
      { response := finishResponse env "source-to-destinations" (existingForSource db1 sid),
        db := db1,
        log := { RunLog.empty with bulkExistQueries :=
          [([sid], (sortedDests db1).map (fun d => d.id))] } } := by
  unfold p11FromSource
  rw [h1]
  simp only [he, hpt, Bool.false_eq_true, if_false]
  repeat' split
  · rfl
  all_goals exact absurd h2 (by assumption)

theorem p11ToDest_cached_run (env : Env) (db1 : Db) (did : Nat) (dest : Destination)
    (h1 : findDest db1 did = some dest)
    (hco : (!(truthyNum dest.latitude) || !(truthyNum dest.longitude)) = false)
    (h2 : (missingForDest db1 did).isEmpty = true) :
    p11ToDest env db1 did =
      { response := finishResponse env "sources-to-destination" (existingForDest db1 did),
        db := db1,
        log := { RunLog.empty with bulkExistQueries :=
          [((sortedSources db1).map (fun s => s.id), [did])] } } := by
  unfold p11ToDest
  rw [h1]
  simp only [hco, Bool.false_eq_true, if_false]
  repeat' split
  · rfl
  all_goals exact absurd h2 (by assumption)

theorem p11FromSource_rerun (env : Env) (db : Db) (sid : Nat) (src : Source)
    (hs : findSource db sid = some src) (he : env.earlyTimeout = false)
    (hpt : env.preBatchTimeout = false)
    (hcomp : (missingForSource (p11FromSource env db sid).db sid).isEmpty = true) :
    (p11FromSource env (p11FromSource env db sid).db sid).log.singleCalls = [] ∧
    (p11FromSource env (p11FromSource env db sid).db sid).log.chunkCalls = [] ∧
    (p11FromSource env (p11FromSource env db sid).db sid).log.batchArgs = none ∧
    (p11FromSource env (p11FromSource env db sid).db sid).response.rows =
      (p11FromSource env db sid).response.rows := by
  obtain ⟨nr, h200, hrows, hdist, hsrc, hdest, hmem⟩ :=
    p11FromSource_structure env db sid src hs he hpt
  have hs2 : findSource (p11FromSource env db sid).db sid = some src := by
    rw [findSource_congr hsrc]; exact hs
  have hex : existingForSource (p11FromSource env db sid).db sid
      = existingForSource db sid ++ nr := existingForSource_append sid hdest hdist hmem
  have hrun2 := p11FromSource_cached_run env (p11FromSource env db sid).db sid src he hpt hs2 hcomp
  refine ⟨?_, ?_, ?_, ?_⟩
  · rw [hrun2]; rfl
  · rw [hrun2]; rfl
  · rw [hrun2]; rfl
  · rw [hrun2]
    simp only [finishResponse]
    rw [hex, hrows]

theorem p11ToDest_rerun (env : Env) (db : Db) (did : Nat) (dest : Destination)
    (hd : findDest db did = some dest)
    (hco : (!(truthyNum dest.latitude) || !(truthyNum dest.longitude)) = false)
    (hcomp : (missingForDest (p11ToDest env db did).db did).isEmpty = true) :
    (p11ToDest env (p11ToDest env db did).db did).log.singleCalls = [] ∧
    (p11ToDest env (p11ToDest env db did).db did).log.chunkCalls = [] ∧
    (p11ToDest env (p11ToDest env db did).db did).log.batchArgs = none ∧
    (p11ToDest env (p11ToDest env db did).db did).response.rows =
      (p11ToDest env db did).response.rows := by
  obtain ⟨nr, h200, hrows, hdist, hsrc, hdest, hmem⟩ :=
    p11ToDest_structure env db did dest hd hco
  have hd2 : findDest (p11ToDest env db did).db did = some dest := by
    rw [findDest_congr hdest]; exact hd
  have hex : existingForDest (p11ToDest env db did).db did
      = existingForDest db did ++ nr := existingForDest_append did hsrc hdist hmem
  have hrun2 := p11ToDest_cached_run env (p11ToDest env db did).db did dest hd2 hco hcomp
  refine ⟨?_, ?_, ?_, ?_⟩
  · rw [hrun2]; rfl
  · rw [hrun2]; rfl
  · rw [hrun2]; rfl
  · rw [hrun2]
    simp only [finishResponse]
    rw [hex, hrows]

/-! ## C1 — helper lemmas: the single-pair scope caches its result -/

theorem findPair_push {rows : List DistanceRow} {sid did : Nat}
    (h : findPair rows sid did = none) (row : DistanceRow)
    (h1 : row.sourceId = sid) (h2 : row.destinationId = did) :
    findPair (rows ++ [row]) sid did = some row := by
  unfold findPair at h ⊢
  rw [List.find?_append, h]
  simp [h1, h2]

theorem p11Single_cache_hit (env : Env) (db : Db) (sid did : Nat) (row : DistanceRow)
    (h : findPair db.distances sid did = some row) :
    p11Single env db sid did =
      { response := jsonRows [row], db := db,
        log := { RunLog.empty with singleExistQueries := [(sid, did)] } } := by
  unfold p11Single
  rw [h]

theorem p11Single_shape (env : Env) (db : Db) (sid did : Nat) :
    (p11Single env db sid did).response.status ≠ 200 ∨
    ∃ row, (p11Single env db sid did).response.rows = [row] ∧
      findPair (p11Single env db sid did).db.distances sid did = some row := by
  unfold p11Single
  repeat' first | split | dsimp only
  · exact Or.inr ⟨_, rfl, by assumption⟩
  · exact Or.inl (by simp [jsonError])
  · exact Or.inl (by simp [jsonError])
  · exact Or.inl (by simp [jsonError])
  · exact Or.inl (by simp [jsonError])
  · exact Or.inl (by simp [jsonError])
  · exact Or.inl (by simp [jsonError])
  · exact Or.inl (by simp [jsonError])
  · exact Or.inr ⟨_, rfl, findPair_push (by assumption) _ rfl rfl⟩
  · exact Or.inl (by simp [jsonError])
  · exact Or.inl (by simp [jsonError])
  · exact Or.inl (by simp [jsonError])
  · exact Or.inr ⟨_, rfl, findPair_push (by assumption) _ rfl rfl⟩

theorem p11Single_rerun (env : Env) (db : Db) (sid did : Nat)
    (h200 : (p11Single env db sid did).response.status = 200) :
    (p11Single env (p11Single env db sid did).db sid did).log.singleCalls = [] ∧
    (p11Single env (p11Single env db sid did).db sid did).log.geocodeRuns = 0 ∧
    (p11Single env (p11Single env db sid did).db sid did).response.rows =
      (p11Single env db sid did).response.rows := by
  rcases p11Single_shape env db sid did with h | ⟨row, hrows, hfind⟩
  · exact absurd h200 h
  · have hrun2 := p11Single_cache_hit env (p11Single env db sid did).db sid did row hfind
    rw [hrun2, hrows]
    exact ⟨rfl, rfl, rfl⟩

/-! ## C1 — helper lemmas: the full-matrix loop -/

theorem lastLookup_none_of_not_mem_pid (l : List DistanceRow) (s d : Nat)
    (h : ∀ r ∈ l, (r.sourceId, r.destinationId) ≠ (s, d)) :
    lastLookup l s d = none := by
  rw [lastLookup_eq_none_iff]
  intro r hr
  have h2 := h r hr
  by_cases h3 : r.sourceId = s <;> by_cases h4 : r.destinationId = d <;> simp_all

theorem allGo_cons_active (env : Env) (m : List DistanceRow) (s : Source) (d : Destination)
    (rest : List (Source × Destination)) (st : AllSt)
    (ha : st.aborted = false) (hc : st.count < 50) :
    allGo env m ((s, d) :: rest) st =
      match lastLookup m s.id d.id with
      | some row => allGo env m rest { st with results := st.results ++ [row] }
      | none =>
        if truthyNum d.latitude && truthyNum d.longitude then
          match gmCalculateDistance env (srcLoc s) (destLoc d) with
          | .error _ => { st with aborted := true }
          | .ok none => allGo env m rest
              { st with calls := st.calls ++ [((s.id, d.id), (srcLoc s, destLoc d))] }
          | .ok (some r) =>
            if createThrows env st.db s.id d.id then
              { st with aborted := true
                        calls := st.calls ++ [((s.id, d.id), (srcLoc s, destLoc d))] }
            else
              allGo env m rest { st with
                results := st.results ++ [mkRowFromSingle st.db.nextDistanceId s.id d.id r]
                created := st.created ++ [mkRowFromSingle st.db.nextDistanceId s.id d.id r]
                db := pushRow st.db (mkRowFromSingle st.db.nextDistanceId s.id d.id r)
                count := st.count + 1
                calls := st.calls ++ [((s.id, d.id), (srcLoc s, destLoc d))] }
        else allGo env m rest st := by
  simp only [allGo]
  rw [if_neg (by simp [ha]), if_neg (by omega)]

theorem allGo_count_mono (env : Env) (m : List DistanceRow) :
    ∀ pairs st, st.count ≤ (allGo env m pairs st).count := by
  intro pairs
  induction pairs with
  | nil => intro st; exact Nat.le_refl _
  | cons p rest ih =>
    intro st
    rcases p with ⟨s, d⟩
    simp only [allGo]
    repeat' split
    all_goals first
      | exact Nat.le_refl _
      | (refine le_trans ?_ (ih _)
         simp)

theorem allGo_all_cached (env : Env) (m : List DistanceRow) :
    ∀ (pairs : List (Source × Destination)) (st : AllSt),
      (∀ p ∈ pairs, (lastLookup m p.1.id p.2.id).isSome = true ∨
        (truthyNum p.2.latitude && truthyNum p.2.longitude) = false) →
      st.aborted = false → st.count < 50 →
      allGo env m pairs st =
        { st with results := st.results ++ pairs.filterMap (fun p => lastLookup m p.1.id p.2.id) } := by
  intro pairs
  induction pairs with
  | nil =>
    intro st h ha hc
    simp [allGo]
  | cons p rest ih =>
    intro st h ha hc
    rcases p with ⟨s, d⟩
    rw [allGo_cons_active env m s d rest st ha hc]
    cases hlk : lastLookup m s.id d.id with
    | some row =>
      dsimp only
      rw [ih { st with results := st.results ++ [row] }
        (fun q hq => h q (List.mem_cons_of_mem _ hq)) ha hc]
      simp only [List.filterMap_cons, hlk, List.append_assoc, List.singleton_append]
    | none =>
      dsimp only
      have hh : (truthyNum d.latitude && truthyNum d.longitude) = false := by
        rcases h (s, d) (List.mem_cons_self _ _) with h1 | h1
        · rw [hlk] at h1; simp at h1
        · exact h1
      rw [if_neg (by simp [hh])]
      rw [ih st (fun q hq => h q (List.mem_cons_of_mem _ hq)) ha hc]
      simp only [List.filterMap_cons, hlk]

theorem lastLookup_head_pair {m tail tail2 : List DistanceRow} {s d : Nat}
    (h2 : ∀ r ∈ tail, (r.sourceId, r.destinationId) ≠ (s, d))
    (h4 : ∀ r ∈ tail2, (r.sourceId, r.destinationId) ≠ (s, d)) :
    lastLookup (m ++ tail ++ tail2) s d = lastLookup m s d := by
  rw [lastLookup_append, lastLookup_append,
    lastLookup_none_of_not_mem_pid tail s d h2,
    lastLookup_none_of_not_mem_pid tail2 s d h4]
  cases lastLookup m s d <;> rfl

theorem lastLookup_created {X tail2 : List DistanceRow} {row : DistanceRow} {s d : Nat}
    (hrow : (row.sourceId == s && row.destinationId == d) = true)
    (h4 : ∀ r ∈ tail2, (r.sourceId, r.destinationId) ≠ (s, d)) :
    lastLookup ((X ++ [row]) ++ tail2) s d = some row := by
  rw [lastLookup_append, lastLookup_append, lastLookup_none_of_not_mem_pid tail2 s d h4,
    lastLookup_singleton row s d hrow]
  rfl

theorem allGo_complete_run (env : Env) (m : List DistanceRow)
    (hsucc : ∀ o d, ∃ r, gmCalculateDistance env o d = Except.ok (some r)) :
    ∀ (pairs : List (Source × Destination)) (st : AllSt),
      (pairs.map pid).Nodup →
      (∃ tail, st.db.distances = m ++ tail ∧
        ∀ r ∈ tail, (r.sourceId, r.destinationId) ∉ pairs.map pid) →
      st.aborted = false →
      (allGo env m pairs st).aborted = false →
      (allGo env m pairs st).count < 50 →
      (allGo env m pairs st).db.sources = st.db.sources ∧
      (allGo env m pairs st).db.destinations = st.db.destinations ∧
      (∃ tail2, (allGo env m pairs st).db.distances = st.db.distances ++ tail2 ∧
        ∀ r ∈ tail2, (r.sourceId, r.destinationId) ∈ pairs.map pid) ∧
      (∀ p ∈ pairs,
        (lastLookup (allGo env m pairs st).db.distances p.1.id p.2.id).isSome = true ∨
        (truthyNum p.2.latitude && truthyNum p.2.longitude) = false) ∧
      (allGo env m pairs st).results =
        st.results ++ pairs.filterMap (fun p => lastLookup (allGo env m pairs st).db.distances p.1.id p.2.id) := by
  intro pairs
  induction pairs with
  | nil =>
    intro st hnd htail ha hF hC
    exact ⟨rfl, rfl, ⟨[], by simp [allGo], by simp⟩, by simp, by simp [allGo]⟩
  | cons p rest ih =>
    intro st hnd htail ha hF hC
    rcases p with ⟨s, d⟩
    obtain ⟨tail, htl1, htl2⟩ := htail
    have hstc : st.count < 50 := lt_of_le_of_lt (allGo_count_mono env m _ st) hC
    rw [allGo_cons_active env m s d rest st ha hstc] at hF hC ⊢
    have hnd' : (pid (s, d) :: rest.map pid).Nodup := by
      simpa only [List.map_cons] using hnd
    have hndh := (List.nodup_cons.mp hnd').1
    have hnd2 := (List.nodup_cons.mp hnd').2
    cases hlk : lastLookup m s.id d.id with
    | some row =>
      rw [hlk] at hF hC
      dsimp only at hF hC ⊢
      obtain ⟨g1, g2, ⟨tail2, g3, g4⟩, g5, g6⟩ :=
        ih { st with results := st.results ++ [row] } hnd2
          ⟨tail, htl1, fun r hr hmem => htl2 r hr (List.mem_cons_of_mem _ hmem)⟩ ha hF hC
      have htlne : ∀ r ∈ tail, (r.sourceId, r.destinationId) ≠ (s.id, d.id) := by
        intro r hr hcontra
        exact htl2 r hr (by simp only [List.map_cons]; rw [hcontra]; exact List.mem_cons_self _ _)
      have ht2ne : ∀ r ∈ tail2, (r.sourceId, r.destinationId) ≠ (s.id, d.id) := by
        intro r hr hcontra
        apply hndh
        rw [show pid (s, d) = (s.id, d.id) from rfl, ← hcontra]
        exact g4 r hr
      have hmain : lastLookup (allGo env m rest
          { st with results := st.results ++ [row] }).db.distances s.id d.id = some row := by
        rw [g3]
        have hst : ({ st with results := st.results ++ [row] } : AllSt).db.distances
            = m ++ tail := htl1
        rw [hst, lastLookup_head_pair htlne ht2ne, hlk]
      refine ⟨g1, g2, ⟨tail2, g3, ?_⟩, ?_, ?_⟩
      · intro r hr
        simp only [List.map_cons]
        exact List.mem_cons_of_mem _ (g4 r hr)
      · intro q hq
        rcases List.mem_cons.mp hq with hq | hq
        · subst hq
          exact Or.inl (by rw [hmain]; rfl)
        · exact g5 q hq
      · rw [g6, List.filterMap_cons, hmain]
        simp
    | none =>
      rw [hlk] at hF hC
      dsimp only at hF hC ⊢
      by_cases htr : (truthyNum d.latitude && truthyNum d.longitude) = true
      · rw [if_pos htr] at hF hC ⊢
        obtain ⟨rres, hres⟩ := hsucc (srcLoc s) (destLoc d)
        rw [hres] at hF hC ⊢
        dsimp only at hF hC ⊢
        by_cases hct : createThrows env st.db s.id d.id = true
        · rw [if_pos hct] at hF
          simp at hF
        · rw [if_neg hct] at hF hC ⊢
          have hrowid : ((mkRowFromSingle st.db.nextDistanceId s.id d.id rres).sourceId == s.id &&
              (mkRowFromSingle st.db.nextDistanceId s.id d.id rres).destinationId == d.id) = true := by
            simp [mkRowFromSingle]
          obtain ⟨g1, g2, ⟨tail2, g3, g4⟩, g5, g6⟩ :=
            ih { st with
                results := st.results ++ [mkRowFromSingle st.db.nextDistanceId s.id d.id rres]
                created := st.created ++ [mkRowFromSingle st.db.nextDistanceId s.id d.id rres]
                db := pushRow st.db (mkRowFromSingle st.db.nextDistanceId s.id d.id rres)
                count := st.count + 1
                calls := st.calls ++ [((s.id, d.id), (srcLoc s, destLoc d))] } hnd2
              ⟨tail ++ [mkRowFromSingle st.db.nextDistanceId s.id d.id rres], by
                  show (pushRow st.db _).distances = _
                  rw [pushRow, htl1, List.append_assoc], by
                  intro r hr hmem
                  rcases List.mem_append.mp hr with hr | hr
                  · exact htl2 r hr (List.mem_cons_of_mem _ hmem)
                  · have : r = mkRowFromSingle st.db.nextDistanceId s.id d.id rres := by
                      simpa using hr
                    subst this
                    exact hndh (by simpa [mkRowFromSingle, pid] using hmem)⟩ ha hF hC
          have ht2ne : ∀ r ∈ tail2, (r.sourceId, r.destinationId) ≠ (s.id, d.id) := by
            intro r hr hcontra
            apply hndh
            rw [show pid (s, d) = (s.id, d.id) from rfl, ← hcontra]
            exact g4 r hr
          have hmain : lastLookup (allGo env m rest
              { st with
                results := st.results ++ [mkRowFromSingle st.db.nextDistanceId s.id d.id rres]
                created := st.created ++ [mkRowFromSingle st.db.nextDistanceId s.id d.id rres]
                db := pushRow st.db (mkRowFromSingle st.db.nextDistanceId s.id d.id rres)
                count := st.count + 1
                calls := st.calls ++ [((s.id, d.id), (srcLoc s, destLoc d))] }).db.distances
              s.id d.id = some (mkRowFromSingle st.db.nextDistanceId s.id d.id rres) := by
            rw [g3]
            show lastLookup ((st.db.distances ++ [_]) ++ tail2) s.id d.id = _
            exact lastLookup_created hrowid ht2ne
          refine ⟨?_, ?_, ⟨mkRowFromSingle st.db.nextDistanceId s.id d.id rres :: tail2, ?_, ?_⟩,
            ?_, ?_⟩
          · exact g1
          · exact g2
          · rw [g3]
            show (st.db.distances ++ [_]) ++ tail2 = _
            rw [List.append_assoc]
            rfl
          · intro r hr
            rcases List.mem_cons.mp hr with hr | hr
            · subst hr
              simp only [List.map_cons]
              exact List.mem_cons_self _ _
            · simp only [List.map_cons]
              exact List.mem_cons_of_mem _ (g4 r hr)
          · intro q hq
            rcases List.mem_cons.mp hq with hq | hq
            · subst hq
              exact Or.inl (by rw [hmain]; rfl)
            · exact g5 q hq
          · rw [g6, List.filterMap_cons, hmain]
            simp
      · rw [if_neg htr] at hF hC ⊢
        rw [Bool.not_eq_true] at htr
        obtain ⟨g1, g2, ⟨tail2, g3, g4⟩, g5, g6⟩ :=
          ih st hnd2
            ⟨tail, htl1, fun r hr hmem => htl2 r hr (List.mem_cons_of_mem _ hmem)⟩ ha hF hC
        have htlne : ∀ r ∈ tail, (r.sourceId, r.destinationId) ≠ (s.id, d.id) := by
          intro r hr hcontra
          exact htl2 r hr (by simp only [List.map_cons]; rw [hcontra]; exact List.mem_cons_self _ _)
        have ht2ne : ∀ r ∈ tail2, (r.sourceId, r.destinationId) ≠ (s.id, d.id) := by
          intro r hr hcontra
          apply hndh
          rw [show pid (s, d) = (s.id, d.id) from rfl, ← hcontra]
          exact g4 r hr
        have hmain : lastLookup (allGo env m rest st).db.distances s.id d.id = none := by
          rw [g3, htl1, lastLookup_head_pair htlne ht2ne, hlk]
        refine ⟨g1, g2, ⟨tail2, g3, ?_⟩, ?_, ?_⟩
        · intro r hr
          simp only [List.map_cons]
          exact List.mem_cons_of_mem _ (g4 r hr)
        · intro q hq
          rcases List.mem_cons.mp hq with hq | hq
          · subst hq
            exact Or.inr htr
          · exact g5 q hq
        · rw [g6, List.filterMap_cons, hmain]

theorem sortedSources_ids_nodup (db : Db)
    (hS : (db.sources.map (fun s => s.id)).Nodup) :
    ((sortedSources db).map (fun s => s.id)).Nodup := by
  have hperm : (sortedSources db).Perm db.sources := List.perm_insertionSort _ _
  exact ((hperm.map _).nodup_iff).mpr hS

theorem pairsAll_pid_nodup (db : Db)
    (hS : (db.sources.map (fun s => s.id)).Nodup)
    (hD : (db.destinations.map (fun d => d.id)).Nodup) :
    ((pairsAll db).map pid).Nodup := by
  have heq : (pairsAll db).map pid =
      ((sortedSources db).map (fun s => s.id)).product ((sortedDests db).map (fun d => d.id)) := by
    unfold pairsAll List.product
    simp only [List.map_flatMap, List.flatMap_map, List.map_map]
    exact flatMap_congr_left (fun a _ => List.map_congr_left (fun d _ => rfl))
  rw [heq]
  exact List.Nodup.product (sortedSources_ids_nodup db hS) (sortedDests_ids_nodup db hD)

theorem pairsAll_congr {db1 db2 : Db} (h1 : db1.sources = db2.sources)
    (h2 : db1.destinations = db2.destinations) : pairsAll db1 = pairsAll db2 := by
  unfold pairsAll
  rw [sortedSources_congr h1, sortedDests_congr h2]

theorem p11All_rerun (env : Env) (db : Db)
    (hsucc : ∀ o d, ∃ r, gmCalculateDistance env o d = Except.ok (some r))
    (hS : (db.sources.map (fun s => s.id)).Nodup)
    (hD : (db.destinations.map (fun d => d.id)).Nodup)
    (hF : (allGo env db.distances (pairsAll db) (allInit db)).aborted = false)
    (hC : (allGo env db.distances (pairsAll db) (allInit db)).count < 50) :
    (p11All env (p11All env db).db).log.singleCalls = [] ∧
    (p11All env (p11All env db).db).response.rows = (p11All env db).response.rows := by
  obtain ⟨g1, g2, ⟨tail2, g3, g4⟩, g5, g6⟩ :=
    allGo_complete_run env db.distances hsucc (pairsAll db) (allInit db)
      (pairsAll_pid_nodup db hS hD) ⟨[], by simp [allInit], by simp⟩ rfl hF hC
  have g1' : (allGo env db.distances (pairsAll db) (allInit db)).db.sources = db.sources := g1
  have g2' : (allGo env db.distances (pairsAll db) (allInit db)).db.destinations
      = db.destinations := g2
  have hrun1 : p11All env db =
      { response := jsonRows
          (((allGo env db.distances (pairsAll db) (allInit db)).results).insertionSort
            (fun a b => rowLeB db a b = true)),
        db := (allGo env db.distances (pairsAll db) (allInit db)).db,
        log := { RunLog.empty with
          singleCalls := (allGo env db.distances (pairsAll db) (allInit db)).calls
          bulkExistQueries := [((sortedSources db).map (fun s => s.id),
            (sortedDests db).map (fun d => d.id))] } } := by
    unfold p11All
    rw [if_neg (by simp [hF])]
  have hpa : pairsAll (allGo env db.distances (pairsAll db) (allInit db)).db = pairsAll db :=
    pairsAll_congr g1' g2'
  have hrun2st : allGo env
      (allGo env db.distances (pairsAll db) (allInit db)).db.distances
      (pairsAll (allGo env db.distances (pairsAll db) (allInit db)).db)
      (allInit (allGo env db.distances (pairsAll db) (allInit db)).db) =
      { allInit (allGo env db.distances (pairsAll db) (allInit db)).db with
        results := (allInit (allGo env db.distances (pairsAll db) (allInit db)).db).results ++
          (pairsAll db).filterMap (fun p =>
            lastLookup (allGo env db.distances (pairsAll db) (allInit db)).db.distances p.1.id p.2.id) } := by
    rw [hpa]
    exact allGo_all_cached env _ (pairsAll db) _ g5 rfl (by simp [allInit])
  have hrun2 : p11All env (allGo env db.distances (pairsAll db) (allInit db)).db =
      { response := jsonRows
          (((pairsAll db).filterMap (fun p =>
            lastLookup (allGo env db.distances (pairsAll db) (allInit db)).db.distances p.1.id p.2.id)).insertionSort
            (fun a b => rowLeB (allGo env db.distances (pairsAll db) (allInit db)).db a b = true)),
        db := (allGo env db.distances (pairsAll db) (allInit db)).db,
        log := { RunLog.empty with
          singleCalls := []
          bulkExistQueries := [((sortedSources (allGo env db.distances (pairsAll db) (allInit db)).db).map (fun s => s.id),
            (sortedDests (allGo env db.distances (pairsAll db) (allInit db)).db).map (fun d => d.id))] } } := by
    unfold p11All
    rw [hrun2st]
    rw [if_neg (by simp [allInit])]
    rfl
  refine ⟨?_, ?_⟩
  · rw [hrun1]
    dsimp only
    rw [hrun2]
  · rw [hrun1]
    dsimp only
    rw [hrun2]
    dsimp only [jsonRows]
    rw [rowLeB_congr g1' g2', g6]
    simp [allInit]

/-- C1: for each of the four completion scopes — single pair
(`calculateSingleDistance`), one source to all destinations
(`calculateDistancesFromSource`), all sources to one destination
(`calculateDistancesToDestination`), and the full matrix
(`calculateAllDistances`) — running the same scope again immediately after a
completed first run performs zero provider invocations (no `calculateDistance`
calls, and for the bulk scopes no `batchCalculateDistances` invocation either)
and returns exactly the rows of the first run. "Completed" means: the single
run answered 200; the bulk scopes left no missing pair; the full-matrix run
neither aborted nor hit `MAX_CALCULATIONS`, with the provider succeeding on
every pair. -/
theorem c1_second_run_zero_provider_calls_same_rows (env : Env) (db : Db) (sid did : Nat)
    (src : Source) (dest : Destination)
    (h200 : (p11Single env db sid did).response.status = 200)
    (hs : findSource db sid = some src)
    (he : env.earlyTimeout = false) (hpt : env.preBatchTimeout = false)
    (hcomp : (missingForSource (p11FromSource env db sid).db sid).isEmpty = true)
    (hd : findDest db did = some dest)
    (hco : (!(truthyNum dest.latitude) || !(truthyNum dest.longitude)) = false)
    (hcompd : (missingForDest (p11ToDest env db did).db did).isEmpty = true)
    (hsucc : ∀ o d, ∃ r, gmCalculateDistance env o d = Except.ok (some r))
    (hS : (db.sources.map (fun s => s.id)).Nodup)
    (hD : (db.destinations.map (fun d => d.id)).Nodup)
    (hF : (allGo env db.distances (pairsAll db) (allInit db)).aborted = false)
    (hC : (allGo env db.distances (pairsAll db) (allInit db)).count < 50) :
    ((p11Single env (p11Single env db sid did).db sid did).log.singleCalls = [] ∧
     (p11Single env (p11Single env db sid did).db sid did).response.rows =
       (p11Single env db sid did).response.rows) ∧
    ((p11FromSource env (p11FromSource env db sid).db sid).log.singleCalls = [] ∧
     (p11FromSource env (p11FromSource env db sid).db sid).log.batchArgs = none ∧
     (p11FromSource env (p11FromSource env db sid).db sid).response.rows =
       (p11FromSource env db sid).response.rows) ∧
    ((p11ToDest env (p11ToDest env db did).db did).log.singleCalls = [] ∧
     (p11ToDest env (p11ToDest env db did).db did).log.batchArgs = none ∧
     (p11ToDest env (p11ToDest env db did).db did).response.rows =
       (p11ToDest env db did).response.rows) ∧
    ((p11All env (p11All env db).db).log.singleCalls = [] ∧
     (p11All env (p11All env db).db).response.rows = (p11All env db).response.rows) := by
  obtain ⟨a1, _, a3⟩ := p11Single_rerun env db sid did h200
  obtain ⟨b1, _, b3, b4⟩ := p11FromSource_rerun env db sid src hs he hpt hcomp
  obtain ⟨t1, _, t3, t4⟩ := p11ToDest_rerun env db did dest hd hco hcompd
  obtain ⟨d1, d2⟩ := p11All_rerun env db hsucc hS hD hF hC
  exact ⟨⟨a1, a3⟩, ⟨b1, b3, b4⟩, ⟨t1, t3, t4⟩, ⟨d1, d2⟩⟩

set_option maxRecDepth 40000 in
/-- Witness for C1 at the fixture database: every scope completes under the
all-success environment, and each second run is provider-silent with
identical rows. -/
theorem c1_witness :
    ((p11Single fxEnvOk (p11Single fxEnvOk fxDb 1 2).db 1 2).log.singleCalls = [] ∧
     (p11Single fxEnvOk (p11Single fxEnvOk fxDb 1 2).db 1 2).response.rows =
       (p11Single fxEnvOk fxDb 1 2).response.rows) ∧
    ((p11FromSource fxEnvOk (p11FromSource fxEnvOk fxDb 1).db 1).log.singleCalls = [] ∧
     (p11FromSource fxEnvOk (p11FromSource fxEnvOk fxDb 1).db 1).log.batchArgs = none ∧
     (p11FromSource fxEnvOk (p11FromSource fxEnvOk fxDb 1).db 1).response.rows =
       (p11FromSource fxEnvOk fxDb 1).response.rows) ∧
    ((p11ToDest fxEnvOk (p11ToDest fxEnvOk fxDb 2).db 2).log.singleCalls = [] ∧
     (p11ToDest fxEnvOk (p11ToDest fxEnvOk fxDb 2).db 2).log.batchArgs = none ∧
     (p11ToDest fxEnvOk (p11ToDest fxEnvOk fxDb 2).db 2).response.rows =
       (p11ToDest fxEnvOk fxDb 2).response.rows) ∧
    ((p11All fxEnvOk (p11All fxEnvOk fxDb).db).log.singleCalls = [] ∧
     (p11All fxEnvOk (p11All fxEnvOk fxDb).db).response.rows =
       (p11All fxEnvOk fxDb).response.rows) := by
  have hcnt : (allGo fxEnvOk fxDb.distances (pairsAll fxDb) (allInit fxDb)).count = 1 := by
    with_unfolding_all rfl
  refine c1_second_run_zero_provider_calls_same_rows fxEnvOk fxDb 1 2 fxS1 fxD2
    ?_ rfl rfl rfl ?_ rfl rfl ?_ (fun o d => ⟨_, rfl⟩) (by decide) (by decide) ?_ ?_
  · with_unfolding_all rfl
  · with_unfolding_all rfl
  · with_unfolding_all rfl
  · with_unfolding_all rfl
  · rw [hcnt]
    omega
